import Mathlib

/-!
Verification of the gossip-network node runtime against its natural-language
specification.  The repository contains two node implementations:

* `gossip_node.py` — the asyncio `GossipNode` class (push/pull gossip,
  ping/pong failure detection, peer table keyed by `node_id`);
* `src/node.py` — the `NodeRuntime` / `PeerStore` runtime (peer table keyed
  by `addr`, HELLO validation with capabilities and proof-of-work).

Both are embedded shallowly below.  Machine-level details are modelled as:
timestamps and TTLs as `Int`; the seeded PRNG (`random.Random(seed+port)`,
`random.seed(seed)`) as a stream of naturals consumed by shuffling and
integer draws; `uuid.uuid4()` (which draws from OS entropy, not from the
seeded PRNG) as a separate stream of strings; Python dicts as association
lists that preserve insertion order.  SHA-256 is implemented in full so that
proof-of-work credentials evaluate concretely.
-/

namespace Sha256

/-- Word size modulus for 32-bit arithmetic. -/
def M32 : Nat := 4294967296

/-- Addition modulo 2^32. -/
def add32 (a b : Nat) : Nat := (a + b) % M32

/-- Right rotation of a 32-bit word. -/
def rotr (n x : Nat) : Nat := ((x >>> n) ||| (x <<< (32 - n))) % M32

/-- Logical right shift. -/
def shr (n x : Nat) : Nat := x >>> n

/-- Three-way xor. -/
def xor3 (a b c : Nat) : Nat := Nat.xor (Nat.xor a b) c

/-- Big sigma 0 of SHA-256. -/
def bsig0 (x : Nat) : Nat := xor3 (rotr 2 x) (rotr 13 x) (rotr 22 x)

/-- Big sigma 1 of SHA-256. -/
def bsig1 (x : Nat) : Nat := xor3 (rotr 6 x) (rotr 11 x) (rotr 25 x)

/-- Small sigma 0 of SHA-256. -/
def ssig0 (x : Nat) : Nat := xor3 (rotr 7 x) (rotr 18 x) (shr 3 x)

/-- Small sigma 1 of SHA-256. -/
def ssig1 (x : Nat) : Nat := xor3 (rotr 17 x) (rotr 19 x) (shr 10 x)

/-- Choice function. -/
def chF (x y z : Nat) : Nat := Nat.xor (Nat.land x y) (Nat.land (Nat.xor x 4294967295) z)

/-- Majority function. -/
def majF (x y z : Nat) : Nat :=
  Nat.xor (Nat.xor (Nat.land x y) (Nat.land x z)) (Nat.land y z)

/-- Round constants. -/
def K : List Nat :=
  [1116352408, 1899447441, 3049323471, 3921009573, 961987163, 1508970993, 2453635748, 2870763221,
   3624381080, 310598401, 607225278, 1426881987, 1925078388, 2162078206, 2614888103, 3248222580,
   3835390401, 4022224774, 264347078, 604807628, 770255983, 1249150122, 1555081692, 1996064986,
   2554220882, 2821834349, 2952996808, 3210313671, 3336571891, 3584528711, 113926993, 338241895,
   666307205, 773529912, 1294757372, 1396182291, 1695183700, 1986661051, 2177026350, 2456956037,
   2730485921, 2820302411, 3259730800, 3345764771, 3516065817, 3600352804, 4094571909, 275423344,
   430227734, 506948616, 659060556, 883997877, 958139571, 1322822218, 1537002063, 1747873779,
   1955562222, 2024104815, 2227730452, 2361852424, 2428436474, 2756734187, 3204031479,
   3329325298]

/-- Initial hash value. -/
def initH : List Nat :=
  [1779033703, 3144134277, 1013904242, 2773480762, 1359893119, 2600822924, 528734635, 1541459225]

/-- UTF-8 encoding of a single character as a byte list. -/
def utf8Bytes (c : Char) : List Nat :=
  let n := c.toNat
  if n < 0x80 then [n]
  else if n < 0x800 then [0xC0 ||| (n >>> 6), 0x80 ||| (n &&& 0x3F)]
  else if n < 0x10000 then
    [0xE0 ||| (n >>> 12), 0x80 ||| ((n >>> 6) &&& 0x3F), 0x80 ||| (n &&& 0x3F)]
  else
    [0xF0 ||| (n >>> 18), 0x80 ||| ((n >>> 12) &&& 0x3F),
     0x80 ||| ((n >>> 6) &&& 0x3F), 0x80 ||| (n &&& 0x3F)]

/-- UTF-8 bytes of a string. -/
def strBytes (s : String) : List Nat := (s.data.map utf8Bytes).flatten

/-- Big-endian byte expansion of a number to a fixed width. -/
def beBytes : Nat → Nat → List Nat
  | 0, _ => []
  | n + 1, v => beBytes n (v >>> 8) ++ [v &&& 0xFF]

/-- SHA-256 message padding: append 0x80, zero bytes, and the 64-bit
big-endian bit length, reaching a multiple of 64 bytes. -/
def padMsg (msg : List Nat) : List Nat :=
  let len := msg.length
  let padZeros := (119 - len % 64) % 64
  msg ++ [0x80] ++ List.replicate padZeros 0 ++ beBytes 8 (8 * len)

/-- Big-endian 32-bit words from a byte list. -/
def bytesToWords : List Nat → List Nat
  | b0 :: b1 :: b2 :: b3 :: rest =>
      ((((b0 <<< 8) ||| b1) <<< 8 ||| b2) <<< 8 ||| b3) :: bytesToWords rest
  | _ => []

/-- Split a word list into 16-word blocks (fuel-driven to stay structural). -/
def chunks16 : Nat → List Nat → List (List Nat)
  | 0, _ => []
  | _, [] => []
  | fuel + 1, ws => ws.take 16 :: chunks16 fuel (ws.drop 16)

/-- Next word of the message schedule, from the words produced so far. -/
def nextWord (w : List Nat) : Nat :=
  let t := w.length
  add32 (add32 (ssig1 (w.getD (t - 2) 0)) (w.getD (t - 7) 0))
        (add32 (ssig0 (w.getD (t - 15) 0)) (w.getD (t - 16) 0))

/-- Extend the 16-word block to the 64-word schedule. -/
def extendSched : Nat → List Nat → List Nat
  | 0, w => w
  | n + 1, w => extendSched n (w ++ [nextWord w])

/-- The eight working registers of the compression function. -/
structure Regs where
  a : Nat
  b : Nat
  c : Nat
  d : Nat
  e : Nat
  f : Nat
  g : Nat
  h : Nat

/-- One round of the compression function. -/
def roundF (s : Regs) (wk : Nat × Nat) : Regs :=
  let t1 := add32 s.h (add32 (bsig1 s.e) (add32 (chF s.e s.f s.g) (add32 wk.2 wk.1)))
  let t2 := add32 (bsig0 s.a) (majF s.a s.b s.c)
  ⟨add32 t1 t2, s.a, s.b, s.c, add32 s.d t1, s.e, s.f, s.g⟩

/-- Compress one 16-word block into the running hash value. -/
def compress (hs : List Nat) (block : List Nat) : List Nat :=
  let w := extendSched 48 block
  let s0 : Regs := ⟨hs.getD 0 0, hs.getD 1 0, hs.getD 2 0, hs.getD 3 0,
                    hs.getD 4 0, hs.getD 5 0, hs.getD 6 0, hs.getD 7 0⟩
  let s1 := (w.zip K).foldl roundF s0
  [add32 s0.a s1.a, add32 s0.b s1.b, add32 s0.c s1.c, add32 s0.d s1.d,
   add32 s0.e s1.e, add32 s0.f s1.f, add32 s0.g s1.g, add32 s0.h s1.h]

/-- SHA-256 digest of a string as eight 32-bit words. -/
def sha256Words (s : String) : List Nat :=
  let ws := bytesToWords (padMsg (strBytes s))
  (chunks16 ws.length ws).foldl compress initH

/-- Lowercase hexadecimal digit. -/
def hexDigit (n : Nat) : Char :=
  if n < 10 then Char.ofNat (48 + n) else Char.ofNat (87 + n)

/-- Eight lowercase hex digits of a 32-bit word, most significant first. -/
def hexWord (w : Nat) : List Char :=
  (List.range 8).map (fun i => hexDigit ((w >>> (28 - 4 * i)) &&& 15))

/-- Lowercase hex SHA-256 digest of a string, as `hashlib.sha256(...).hexdigest()`
returns it for the string's UTF-8 encoding. -/
def sha256hex (s : String) : String :=
  String.mk ((sha256Words s).map hexWord).flatten

end Sha256


namespace PyStr

/-! String operations used by the embedding, implemented structurally over
character lists so that concrete instances reduce inside the kernel.  They
mirror the Python string operations named in their doc comments. -/

/-- Code-point lexicographic `<` on character lists (Python string `<`). -/
def charListLt : List Char → List Char → Bool
  | [], [] => false
  | [], _ :: _ => true
  | _ :: _, [] => false
  | a :: as, b :: bs =>
      if a.toNat < b.toNat then true
      else if b.toNat < a.toNat then false
      else charListLt as bs

/-- Python string `<`. -/
def strLt (a b : String) : Bool := charListLt a.data b.data

/-- Split on `":"` exactly like Python `split(":")`, keeping empty pieces. -/
def splitColsChars : List Char → List (List Char)
  | [] => [[]]
  | c :: rest =>
      let r := splitColsChars rest
      if c = ':' then [] :: r else (c :: r.headD []) :: r.tail

/-- Python `s.split(":")`. -/
def splitCols (s : String) : List String := (splitColsChars s.data).map String.mk

/-- Decimal digit value. -/
def digVal (c : Char) : Option Nat := if c.isDigit then some (c.toNat - 48) else none

/-- Parse a nonempty all-digit run. -/
def parseNatChars (cs : List Char) : Option Nat :=
  if cs.isEmpty then none
  else cs.foldl (fun acc c =>
    match acc, digVal c with
    | some n, some d => some (n * 10 + d)
    | _, _ => none) (some 0)

/-- Python `int(s)` on the strings the protocol carries: an optional sign
followed by decimal digits (surrounding whitespace and underscore grouping,
which `int` also accepts, do not occur in addresses). -/
def parseIntStr (s : String) : Option Int :=
  match s.data with
  | '-' :: rest => (parseNatChars rest).map (fun n => -(Int.ofNat n))
  | '+' :: rest => (parseNatChars rest).map Int.ofNat
  | cs => (parseNatChars cs).map Int.ofNat

/-- Python `str.startswith`. -/
def listStarts : List Char → List Char → Bool
  | [], _ => true
  | _ :: _, [] => false
  | p :: ps, c :: cs => p == c && listStarts ps cs

/-- Python `s.startswith(pre)`. -/
def strStarts (s pre : String) : Bool := listStarts pre.data s.data

/-- Python `s.lower()`. -/
def strLower (s : String) : String := String.mk (s.data.map Char.toLower)

/-- Whitespace recognised by `str.strip` (the characters that occur here). -/
def isSpaceChar (c : Char) : Bool := c == ' ' || c == '\t' || c == '\n' || c == '\r'

/-- Python `s.strip()`. -/
def strStrip (s : String) : String :=
  String.mk (((s.data.dropWhile isSpaceChar).reverse.dropWhile isSpaceChar).reverse)

/-- Insert into an ascending list (code-point order). -/
def insertSorted (a : String) : List String → List String
  | [] => [a]
  | b :: t => if strLt b a then b :: insertSorted a t else a :: b :: t

/-- Python `sorted` on a list of strings. -/
def sortStrs (l : List String) : List String := l.foldr insertSorted []

end PyStr

namespace GossipPy

/-! Shallow embedding of `gossip_node.py` (`class GossipNode`).

Python dicts become association lists that keep insertion order (`dictSet`
updates in place, `dictPop` removes).  `random.Random(seed+port)` becomes the
`rng : List Nat` stream consumed by `shuffleList` (a Fisher-Yates style
shuffle driven by the stream, so every permutation is reachable and equal
streams give equal permutations) and by `drawNat` for `randint`.
`uuid.uuid4()` becomes the `uuids : List String` stream: uuid4 reads OS
entropy, not the seeded generator, so it is a separate input of a run.
Clock readings (`time.time()`, `int(time.time()*1000)`) become the `now`
argument carried by each event. -/

/-- A `(host, port)` tuple as used by the asyncio transport. -/
abbrev Addr := String × Int

/-- Render an address the way f-strings in the source do. -/
def addrToStr (a : Addr) : String := a.1 ++ ":" ++ toString a.2

/-- Mirror of the `PeerInfo` dataclass. -/
structure PeerInfo where
  node_id : String
  addr : Addr
  last_seen : Int
  last_ping : Int := 0
  missed_pongs : Int := 0
deriving DecidableEq, Repr

/-- Mirror of `NodeConfig` (scheduling intervals that only pace the asyncio
sleeps are omitted; the seed materialises as the `rng` stream). -/
structure NodeConfig where
  fanout : Nat
  ttl : Int
  peer_limit : Nat
  peer_timeout : Int
  pull_interval : Int
  discovery_interval : Int
  ihave_max_ids : Nat
  pow_k : Nat
deriving DecidableEq, Repr

/-- Mirror of the `pow` payload object checked by `_verify_pow`; the
`int(...)` coercions of the source are reflected by typed fields, with the
source's `.get` defaults as defaults. -/
structure PowPayload where
  hash_alg : String := ""
  difficulty_k : Int := -1
  nonce : Int := -1
  digest_hex : String := ""
deriving DecidableEq, Repr

/-- One `{"node_id": ..., "addr": "host:port"}` record of a PEERS_LIST. -/
structure PeerEntryPy where
  node_id : String
  addr : String
deriving DecidableEq, Repr

/-- Union of the per-kind payload fields, with the defaults the handlers use
for `payload.get(...)`; an absent field equals its default. -/
structure Payload where
  capabilities : List String := []
  pow : Option PowPayload := none
  max_peers : Option Int := none
  peers : List PeerEntryPy := []
  max_ids : Int := 0
  ping_id : String := ""
  seq : Int := 0
  topic : String := ""
  data : String := ""
  origin_id : String := ""
  origin_timestamp_ms : Int := 0
  ids : List String := []
deriving DecidableEq, Repr

/-- A message envelope; `ttl` defaults to 0 exactly like `msg.get("ttl", 0)`,
and an empty `msg_id`/`msg_type`/`sender_id` models a missing field (Python
falsiness). -/
structure Msg where
  version : Int := 1
  msg_id : String := ""
  msg_type : String
  sender_id : String
  sender_addr : String := ""
  timestamp_ms : Int := 0
  ttl : Int := 0
  payload : Payload := {}
deriving DecidableEq, Repr

/-- A datagram handed to `transport.sendto` by `_send_raw`. -/
structure Send where
  msg : Msg
  dest : Addr
deriving DecidableEq, Repr

/-- The mutable state of a `GossipNode` object. -/
structure NodeState where
  cfg : NodeConfig
  node_id : String
  self_addr : Addr
  peers : List (String × PeerInfo) := []
  seen_msgs : List String := []
  gossip_cache : List (String × Msg) := []
  hello_pow : Option PowPayload := none
  rng : List Nat := []
  uuids : List String := []
deriving DecidableEq, Repr

/-- Look a key up in a Python-dict association list. -/
def dictGet (d : List (String × α)) (k : String) : Option α :=
  (d.find? (fun kv => kv.1 == k)).map (·.2)

/-- Membership test for a Python-dict association list. -/
def dictContains (d : List (String × α)) (k : String) : Bool :=
  d.any (fun kv => kv.1 == k)

/-- `d[k] = v` on a dict: update in place when present, append when new. -/
def dictSet (d : List (String × α)) (k : String) (v : α) : List (String × α) :=
  if dictContains d k then
    d.map (fun kv => if kv.1 == k then (k, v) else kv)
  else d ++ [(k, v)]

/-- `d.pop(k, None)` on a dict. -/
def dictPop (d : List (String × α)) (k : String) : List (String × α) :=
  d.filter (fun kv => kv.1 ≠ k)

/-- Draw the next number from the seeded PRNG stream. -/
def drawNat : List Nat → Nat × List Nat
  | [] => (0, [])
  | n :: r => (n, r)

/-- Draw the next `uuid.uuid4()` result from the entropy stream. -/
def drawUuid : List String → String × List String
  | [] => ("", [])
  | u :: r => (u, r)

/-- Stream-driven uniform shuffle (`random.shuffle`): each step draws an
index, brings that element to the front by rotation, and recurses on the
tail; the fuel is the list length. -/
def shuffleAux : Nat → List Nat → List α → List α × List Nat
  | 0, r, _ => ([], r)
  | _, r, [] => ([], r)
  | fuel + 1, r, x :: t =>
      let rot := (x :: t).rotate ((drawNat r).1 % (x :: t).length)
      let res := shuffleAux fuel (drawNat r).2 rot.tail
      (rot.headD x :: res.1, res.2)

/-- Shuffle a list, consuming the PRNG stream. -/
def shuffleList (r : List Nat) (xs : List α) : List α × List Nat :=
  shuffleAux xs.length r xs

/-- Mirror of `_base_msg`: fresh uuid4 `msg_id`, self identity, the event's
clock reading, and `ttl` defaulting to the configured TTL. -/
def baseMsg (s : NodeState) (msg_type : String) (now_ms : Int) (ttl : Option Int) :
    NodeState × Msg :=
  ({ s with uuids := (drawUuid s.uuids).2 },
   { msg_id := (drawUuid s.uuids).1, msg_type := msg_type, sender_id := s.node_id,
     sender_addr := addrToStr s.self_addr, timestamp_ms := now_ms,
     ttl := ttl.getD s.cfg.ttl, payload := {} })

/-- Mirror of `_compute_pow` for `k = 0`: the degenerate credential with an
empty digest. -/
def powZeroCred : PowPayload :=
  { hash_alg := "sha256", difficulty_k := 0, nonce := 0, digest_hex := "" }

/-- The `"0" * k` target. -/
def zeroTarget (k : Nat) : String := String.mk (List.replicate k '0')

/-- Search loop of `_compute_pow` for `k > 0`: digests are taken over
`f"{node_id}{nonce}"` — the node id first, then the decimal nonce.  The
source's `while True` search is given explicit fuel; `none` means the fuel
ran out (the source would still be looping). -/
def computePowSearch (node_id : String) (k : Nat) : Nat → Nat → Option PowPayload
  | _, 0 => none
  | nonce, fuel + 1 =>
      let h := Sha256.sha256hex (node_id ++ toString nonce)
      if PyStr.strStarts h (zeroTarget k) then
        some { hash_alg := "sha256", difficulty_k := Int.ofNat k, nonce := Int.ofNat nonce,
               digest_hex := h }
      else computePowSearch node_id k (nonce + 1) fuel

/-- Mirror of `GossipNode._compute_pow` (with explicit search fuel). -/
def computePow (node_id : String) (k : Nat) (fuel : Nat) : Option PowPayload :=
  if k = 0 then some powZeroCred
  else computePowSearch node_id k 0 fuel

/-- Mirror of `GossipNode._verify_pow`: the recomputed digest is over
`f"{node_id}{nonce}"`, node id first. -/
def verifyPow (node_id : String) (p : PowPayload) (k : Nat) : Bool :=
  if PyStr.strLower p.hash_alg ≠ "sha256" then false
  else if p.difficulty_k ≠ Int.ofNat k then false
  else if p.nonce < 0 then false
  else
    let computed := Sha256.sha256hex (node_id ++ toString p.nonce)
    computed == p.digest_hex && PyStr.strStarts computed (zeroTarget k)

/-- Mirror of `_update_peer`: the table is keyed by `node_id`; a known peer
gets its address and `last_seen` refreshed; a new peer may evict the entry
with the smallest `last_seen` when the table is full (Python's `min` keeps
the first minimum in insertion order). -/
def minByLastSeen (ps : List (String × PeerInfo)) : Option String :=
  (ps.foldl (fun acc kv =>
      match acc with
      | none => some kv
      | some best => if kv.2.last_seen < best.2.last_seen then some kv else some best)
    none).map (·.1)

/-- State update of `_update_peer`. -/
def updatePeer (s : NodeState) (node_id : String) (addr : Addr) (now : Int) : NodeState :=
  match dictGet s.peers node_id with
  | some p =>
      { s with peers := dictSet s.peers node_id { p with addr := addr, last_seen := now } }
  | none =>
      let peers1 :=
        if s.peers.length ≥ s.cfg.peer_limit then
          match minByLastSeen s.peers with
          | some oldest => dictPop s.peers oldest
          | none => s.peers
        else s.peers
      { s with peers := peers1 ++
          [(node_id, { node_id := node_id, addr := addr, last_seen := now })] }

/-- Fuel standing in for the unbounded `while True` search of `_compute_pow`. -/
def powSearchFuel : Nat := 2 ^ 64

/-- Set insertion for `self.seen_msgs.add(...)`. -/
def seenAdd (l : List String) (x : String) : List String :=
  if x ∈ l then l else l ++ [x]

/-- Mirror of `_broadcast`: filter out the excluded peer id, shuffle with the
seeded PRNG, and send the identical envelope to the first
`min(fanout, len(peer_items))` peers.  An empty candidate list returns before
the PRNG is touched, as in the source. -/
def broadcast (s : NodeState) (msg : Msg) (exclude : Option String) :
    NodeState × List Send :=
  let peer_items :=
    match exclude with
    | none => s.peers
    | some ex => s.peers.filter (fun kv => kv.1 ≠ ex)
  if peer_items.isEmpty then (s, [])
  else
    let sh := shuffleList s.rng peer_items
    let fan := min s.cfg.fanout peer_items.length
    ({ s with rng := sh.2 }, (sh.1.take fan).map (fun kv => ⟨msg, kv.2.addr⟩))

/-- Mirror of `_make_hello`; the lazily cached PoW credential is computed on
first use.  When the fuel of the modelled search runs out (`none`) the source
would still be inside `while True`, so that branch is unreachable in any run
the model and the source both finish. -/
def makeHello (s : NodeState) (now : Int) : NodeState × Msg :=
  let s1 := (baseMsg s "HELLO" now none).1
  let m := (baseMsg s "HELLO" now none).2
  if s1.cfg.pow_k > 0 then
    match s1.hello_pow with
    | some p => (s1, { m with payload := { capabilities := ["udp", "json"], pow := some p } })
    | none =>
        match computePow s1.node_id s1.cfg.pow_k powSearchFuel with
        | some p =>
            ({ s1 with hello_pow := some p },
             { m with payload := { capabilities := ["udp", "json"], pow := some p } })
        | none => (s1, { m with payload := { capabilities := ["udp", "json"] } })
  else (s1, { m with payload := { capabilities := ["udp", "json"] } })

/-- Mirror of `_make_get_peers`. -/
def makeGetPeers (s : NodeState) (maxp : Int) (now : Int) : NodeState × Msg :=
  ((baseMsg s "GET_PEERS" now none).1,
   { (baseMsg s "GET_PEERS" now none).2 with payload := { max_peers := some maxp } })

/-- Mirror of `_make_peers_list`: every table entry, in insertion order. -/
def makePeersList (s : NodeState) (now : Int) : NodeState × Msg :=
  ((baseMsg s "PEERS_LIST" now none).1,
   { (baseMsg s "PEERS_LIST" now none).2 with payload :=
          { peers := s.peers.map (fun kv => ⟨kv.2.node_id, addrToStr kv.2.addr⟩) } })

/-- Mirror of `_make_ping`: a second uuid4 draw for `ping_id` and a PRNG draw
for `seq = randint(0, 1_000_000)`. -/
def makePing (s : NodeState) (now : Int) : NodeState × Msg :=
  let s1 := (baseMsg s "PING" now none).1
  ({ s1 with uuids := (drawUuid s1.uuids).2, rng := (drawNat s1.rng).2 },
   { (baseMsg s "PING" now none).2 with payload :=
      { ping_id := (drawUuid s1.uuids).1,
        seq := Int.ofNat ((drawNat s1.rng).1 % 1000001) } })

/-- Mirror of `_make_pong`: echo `ping_id` and `seq` from the incoming
payload. -/
def makePong (s : NodeState) (pp : Payload) (now : Int) : NodeState × Msg :=
  ((baseMsg s "PONG" now none).1,
   { (baseMsg s "PONG" now none).2 with payload :=
      { ping_id := pp.ping_id, seq := pp.seq } })

/-- Mirror of `_make_gossip` (`origin_id or self.node_id`). -/
def makeGossip (s : NodeState) (topic data : String) (origin : Option String) (now : Int) :
    NodeState × Msg :=
  let og := match origin with
    | some o => if o = "" then s.node_id else o
    | none => s.node_id
  ((baseMsg s "GOSSIP" now none).1,
   { (baseMsg s "GOSSIP" now none).2 with payload :=
          { topic := topic, data := data, origin_id := og, origin_timestamp_ms := now } })

/-- Mirror of `_make_ihave`: ids truncated to `ihave_max_ids`. -/
def makeIhave (s : NodeState) (ids : List String) (now : Int) : NodeState × Msg :=
  ((baseMsg s "IHAVE" now none).1,
   { (baseMsg s "IHAVE" now none).2 with payload :=
          { ids := ids.take s.cfg.ihave_max_ids, max_ids := Int.ofNat s.cfg.ihave_max_ids } })

/-- Mirror of `_make_iwant`. -/
def makeIwant (s : NodeState) (ids : List String) (now : Int) : NodeState × Msg :=
  ((baseMsg s "IWANT" now none).1,
   { (baseMsg s "IWANT" now none).2 with payload := { ids := ids } })

/-- Acceptance tail of `_on_hello`: upsert the sender and reply with a
PEERS_LIST snapshot. -/
def helloAccept (s : NodeState) (m : Msg) (addr : Addr) (now : Int) :
    NodeState × List Send :=
  let s1 := updatePeer s m.sender_id addr now
  ((makePeersList s1 now).1, [⟨(makePeersList s1 now).2, addr⟩])

/-- Mirror of `_on_hello`: with `pow_k > 0` a missing or unverifiable `pow`
payload rejects with an early return; capabilities are never inspected. -/
def onHello (s : NodeState) (m : Msg) (addr : Addr) (now : Int) : NodeState × List Send :=
  if s.cfg.pow_k > 0 then
    match m.payload.pow with
    | none => (s, [])
    | some p =>
        if verifyPow m.sender_id p s.cfg.pow_k then helloAccept s m addr now
        else (s, [])
  else helloAccept s m addr now

/-- Reply construction loop of `_on_get_peers`: the list starts with the
node's own entry, and the bound is checked only after each append. -/
def buildGetPeersEntries (acc : List PeerEntryPy) (ps : List (String × PeerInfo))
    (maxp : Int) : List PeerEntryPy :=
  match ps with
  | [] => acc
  | (_, p) :: rest =>
      let acc1 := acc ++ [⟨p.node_id, addrToStr p.addr⟩]
      if (Int.ofNat acc1.length) ≥ maxp then acc1 else buildGetPeersEntries acc1 rest maxp

/-- Mirror of `_on_get_peers`. -/
def onGetPeers (s : NodeState) (m : Msg) (addr : Addr) (now : Int) : NodeState × List Send :=
  let maxp := m.payload.max_peers.getD (Int.ofNat s.cfg.peer_limit)
  let entries := buildGetPeersEntries [⟨s.node_id, addrToStr s.self_addr⟩] s.peers maxp
  ((baseMsg s "PEERS_LIST" now none).1,
   [⟨{ (baseMsg s "PEERS_LIST" now none).2 with payload := { peers := entries } }, addr⟩])

/-- Parse `"host:port"` the way `_on_peers_list` does (`split(":")` must give
exactly two parts and the port must parse as an int). -/
def parseHostPort (a : String) : Option Addr :=
  match PyStr.splitCols a with
  | [h, p] => (PyStr.parseIntStr p).map (fun n => (h, n))
  | _ => none

/-- Entry loop of `_on_peers_list`: malformed entries are skipped, own id is
skipped, newly discovered peers get a HELLO. -/
def onPeersListGo (s : NodeState) (entries : List PeerEntryPy) (now : Int) :
    NodeState × List Send :=
  match entries with
  | [] => (s, [])
  | e :: rest =>
      match parseHostPort e.addr with
      | none => onPeersListGo s rest now
      | some a =>
          if e.node_id = s.node_id then onPeersListGo s rest now
          else
            let wasKnown := dictContains s.peers e.node_id
            let s1 := updatePeer s e.node_id a now
            if wasKnown then onPeersListGo s1 rest now
            else
              let s2 := (makeHello s1 now).1
              let rec1 := onPeersListGo s2 rest now
              (rec1.1, Send.mk (makeHello s1 now).2 a :: rec1.2)

/-- Mirror of `_on_peers_list`. -/
def onPeersList (s : NodeState) (m : Msg) (now : Int) : NodeState × List Send :=
  onPeersListGo s m.payload.peers now

/-- Mirror of `_on_ping`: reply PONG to the datagram's source address. -/
def onPing (s : NodeState) (m : Msg) (addr : Addr) (now : Int) : NodeState × List Send :=
  ((makePong s m.payload now).1, [⟨(makePong s m.payload now).2, addr⟩])

/-- Mirror of `_on_pong`: reset the sender's `missed_pongs`. -/
def onPong (s : NodeState) (m : Msg) : NodeState × List Send :=
  match dictGet s.peers m.sender_id with
  | some p =>
      ({ s with peers := dictSet s.peers m.sender_id { p with missed_pongs := 0 } }, [])
  | none => (s, [])

/-- Mirror of `_on_gossip`.  The third component of the result records the
envelopes handed to `_broadcast` — the push path — so that push forwards can
be counted; it mirrors no extra behaviour. -/
def onGossip (s : NodeState) (m : Msg) (ttl : Int) (sender_id : String) (_now : Int) :
    NodeState × List Send × List Msg :=
  if m.msg_id = "" then (s, [], [])
  else if m.msg_id ∈ s.seen_msgs then (s, [], [])
  else
    let s1 := { s with seen_msgs := s.seen_msgs ++ [m.msg_id] }
    let cache1 := dictSet s1.gossip_cache m.msg_id m
    let cache2 := if cache1.length > 1024 then cache1.tail else cache1
    let s2 := { s1 with gossip_cache := cache2 }
    if ttl ≤ 0 then (s2, [], [])
    else
      let fwd := { m with ttl := ttl - 1 }
      ((broadcast s2 fwd (some sender_id)).1, (broadcast s2 fwd (some sender_id)).2, [fwd])

/-- Mirror of `_on_ihave`: request the unknown ids from the sender when it is
a known peer (the IWANT envelope is built before the peer lookup). -/
def onIhave (s : NodeState) (m : Msg) (sender_id : String) (now : Int) :
    NodeState × List Send :=
  let unknown := m.payload.ids.filter (fun mid => mid ∉ s.seen_msgs)
  if unknown.isEmpty then (s, [])
  else
    match dictGet (makeIwant s unknown now).1.peers sender_id with
    | some p => ((makeIwant s unknown now).1, [⟨(makeIwant s unknown now).2, p.addr⟩])
    | none => ((makeIwant s unknown now).1, [])

/-- Mirror of `_on_iwant`: re-send each cached envelope verbatim to the
requesting peer, when it is known. -/
def onIwant (s : NodeState) (m : Msg) (sender_id : String) : NodeState × List Send :=
  match dictGet s.peers sender_id with
  | none => (s, [])
  | some p =>
      (s, (m.payload.ids.filterMap (fun mid => dictGet s.gossip_cache mid)).map
            (fun cached => ⟨cached, p.addr⟩))

/-- Tag a handler result with an empty push record. -/
def noPush (p : NodeState × List Send) : NodeState × List Send × List Msg :=
  (p.1, p.2, [])

/-- Generic sender refresh of `handle_datagram`: any non-HELLO message from
another node upserts the sender at the datagram's source address before
dispatch. -/
def preUpdate (s : NodeState) (m : Msg) (addr : Addr) (now : Int) : NodeState :=
  if m.sender_id ≠ s.node_id ∧ m.msg_type ≠ "HELLO"
  then updatePeer s m.sender_id addr now else s

/-- Dispatch chain of `handle_datagram` (unknown types are logged and
dropped). -/
def dispatch (s0 : NodeState) (m : Msg) (addr : Addr) (now : Int) :
    NodeState × List Send × List Msg :=
  if m.msg_type = "HELLO" then noPush (onHello s0 m addr now)
  else if m.msg_type = "GET_PEERS" then noPush (onGetPeers s0 m addr now)
  else if m.msg_type = "PEERS_LIST" then noPush (onPeersList s0 m now)
  else if m.msg_type = "PING" then noPush (onPing s0 m addr now)
  else if m.msg_type = "PONG" then noPush (onPong s0 m)
  else if m.msg_type = "GOSSIP" then onGossip s0 m m.ttl m.sender_id now
  else if m.msg_type = "IHAVE" then noPush (onIhave s0 m m.sender_id now)
  else if m.msg_type = "IWANT" then noPush (onIwant s0 m m.sender_id)
  else (s0, [], [])

/-- Mirror of `handle_datagram` for an already decoded message: missing
`msg_type`/`sender_id` drop the datagram. -/
def handleDatagram (s : NodeState) (m : Msg) (addr : Addr) (now : Int) :
    NodeState × List Send × List Msg :=
  if m.msg_type = "" ∨ m.sender_id = "" then (s, [], [])
  else dispatch (preUpdate s m addr now) m addr now

/-- One nonempty stdin line of `_stdin_gossip_loop`: originate a GOSSIP with
a fresh uuid4 id, add it to the seen set, and push it. -/
def originate (s : NodeState) (text : String) (now : Int) :
    NodeState × List Send × List Msg :=
  if text = "" then (s, [], [])
  else
    let msg := (makeGossip s "user" text none now).2
    let s2 := { (makeGossip s "user" text none now).1 with
                seen_msgs := seenAdd ((makeGossip s "user" text none now).1).seen_msgs
                  msg.msg_id }
    ((broadcast s2 msg none).1, (broadcast s2 msg none).2, [msg])

/-- The `missed_pongs` removal threshold (`self._max_missed_pongs`). -/
def maxMissedPongs : Int := 3

/-- Expiry condition of one `_ping_loop` pass for a peer. -/
def pingExpired (cfg : NodeConfig) (now : Int) (p : PeerInfo) : Prop :=
  p.last_ping > 0 ∧ now - p.last_ping > cfg.peer_timeout ∧ now - p.last_seen > cfg.peer_timeout

instance (cfg : NodeConfig) (now : Int) (p : PeerInfo) : Decidable (pingExpired cfg now p) :=
  inferInstanceAs (Decidable (_ ∧ _ ∧ _))

/-- One pass of the `_ping_loop` body: bump `missed_pongs` for silent peers,
remove the ones that just reached the threshold, then ping up to `fanout`
shuffled peers with one shared PING envelope, stamping `last_ping`. -/
def pingTick (s : NodeState) (now : Int) : NodeState × List Send :=
  let peers1 := s.peers.map (fun kv =>
    if pingExpired s.cfg now kv.2
    then (kv.1, { kv.2 with missed_pongs := kv.2.missed_pongs + 1, last_ping := now })
    else kv)
  let deadIds := (s.peers.filter (fun kv =>
      pingExpired s.cfg now kv.2 ∧ kv.2.missed_pongs + 1 ≥ maxMissedPongs)).map (·.1)
  let peers2 := deadIds.foldl dictPop peers1
  if peers2.isEmpty then ({ s with peers := peers2 }, [])
  else
    let sh := shuffleList s.rng peers2
    let s1 := { s with peers := peers2, rng := sh.2 }
    let s2 := (makePing s1 now).1
    let chosen := sh.1.take (min s.cfg.fanout peers2.length)
    let chosenIds := chosen.map (·.1)
    let peers3 := s2.peers.map (fun kv =>
      if chosenIds.contains kv.1 then (kv.1, { kv.2 with last_ping := now }) else kv)
    ({ s2 with peers := peers3 },
     chosen.map (fun kv => ⟨(makePing s1 now).2, kv.2.addr⟩))

/-- One pass of `_hybrid_pull_loop`: advertise a shuffled sample of the seen
set to up to `fanout` shuffled peers. -/
def pullTick (s : NodeState) (now : Int) : NodeState × List Send :=
  if s.cfg.pull_interval ≤ 0 then (s, [])
  else if s.peers.isEmpty ∨ s.seen_msgs.isEmpty then (s, [])
  else
    let shp := shuffleList s.rng s.peers
    let cnt := min s.cfg.fanout shp.1.length
    let shi := shuffleList shp.2 s.seen_msgs
    let s1 := { s with rng := shi.2 }
    ((makeIhave s1 shi.1 now).1,
     (shp.1.take cnt).map (fun kv => ⟨(makeIhave s1 shi.1 now).2, kv.2.addr⟩))

/-- Send loop of `_peer_discovery_loop`: one fresh GET_PEERS envelope per
chosen peer. -/
def discGo (s : NodeState) (chosen : List (String × PeerInfo)) (now : Int) :
    NodeState × List Send :=
  match chosen with
  | [] => (s, [])
  | kv :: rest =>
      let s1 := (makeGetPeers s (Int.ofNat s.cfg.peer_limit) now).1
      let rec1 := discGo s1 rest now
      (rec1.1, Send.mk (makeGetPeers s (Int.ofNat s.cfg.peer_limit) now).2 kv.2.addr :: rec1.2)

/-- One pass of `_peer_discovery_loop`. -/
def discoveryTick (s : NodeState) (now : Int) : NodeState × List Send :=
  if s.cfg.discovery_interval ≤ 0 then (s, [])
  else if s.peers.isEmpty then (s, [])
  else
    let sh := shuffleList s.rng s.peers
    let cnt := min s.cfg.fanout sh.1.length
    discGo { s with rng := sh.2 } (sh.1.take cnt) now

/-- The externally visible happenings a node reacts to: an inbound datagram,
a stdin line, or one of the periodic timers firing, each with the clock
reading taken during that activation. -/
inductive Event where
  | recv (m : Msg) (src : Addr) (now : Int)
  | stdinLine (text : String) (now : Int)
  | pingTick (now : Int)
  | pullTick (now : Int)
  | discoveryTick (now : Int)
deriving DecidableEq, Repr

/-- One cooperative scheduling step of the node. -/
def step (s : NodeState) (e : Event) : NodeState × List Send × List Msg :=
  match e with
  | .recv m src now => handleDatagram s m src now
  | .stdinLine text now => originate s text now
  | .pingTick now => noPush (pingTick s now)
  | .pullTick now => noPush (pullTick s now)
  | .discoveryTick now => noPush (discoveryTick s now)

/-- A run: fold the events, concatenating the emitted datagrams and the push
records. -/
def run (s : NodeState) : List Event → NodeState × List Send × List Msg
  | [] => (s, [], [])
  | e :: rest =>
      ((run (step s e).1 rest).1,
       (step s e).2.1 ++ (run (step s e).1 rest).2.1,
       (step s e).2.2 ++ (run (step s e).1 rest).2.2)

end GossipPy

namespace NodePy

/-! Shallow embedding of `src/node.py` (`PeerStore`, `NodeRuntime`) together
with the pieces of `src/config.py` and `src/messages.py` it uses.  Message
envelopes, payloads and proof-of-work credentials reuse the `GossipPy`
structures (the wire format is shared).  JSON type errors that
`_validate_hello` and `handle_get_peers` reject (a non-list `capabilities`,
a boolean `max_peers`, ...) are modelled by the same typed field taking a
value the code also rejects (an absent list is `[]`, which already fails the
`udp`/`json` membership test), so acceptance and rejection coincide with the
source on every representable message. -/

open GossipPy (Payload PowPayload PeerEntryPy Msg Send drawUuid)

/-- Mirror of the `PeerRecord` dataclass. -/
structure PeerRecord where
  addr : String
  node_id : Option String
  last_seen_ts_ms : Option Int
  consecutive_ping_failures : Int := 0
  last_ping_sent_ms : Option Int := none
  pending_ping_id : Option String := none
  pending_ping_seq : Option Int := none
  rtt_ms : Option Int := none
  is_verified_hello : Bool := false
  source : String := "peers_list"
deriving DecidableEq, Repr

/-- Mirror of `PeerStore`: the `_peers` dict keyed by `addr` becomes an
insertion-ordered list of records with pairwise distinct `addr`s. -/
structure PeerStore where
  self_addr : String
  peer_limit : Nat
  peer_timeout_ms : Int
  peers : List PeerRecord := []
deriving DecidableEq, Repr

/-- The `{"action": ..., "reason": ..., "evicted": ...}` result of `upsert`. -/
structure UpsertResult where
  action : String
  reason : String
  evicted : Option String
deriving DecidableEq, Repr

/-- Python truthiness of an optional string (`if node_id:`). -/
def pyTruthy : Option String → Bool
  | none => false
  | some s => s ≠ ""

/-- The eviction score of `_select_eviction_candidate`:
`(consecutive_ping_failures, staleness_ms, addr)` with
`staleness_ms = max(0, now - (last_seen_ts_ms or 0))`. -/
def score (now : Int) (r : PeerRecord) : Int × Int × String :=
  (r.consecutive_ping_failures, max 0 (now - (r.last_seen_ts_ms.getD 0)), r.addr)

/-- Python's `>` on `(int, int, str)` tuples: full lexicographic comparison,
the string component by code points. -/
def scoreGt (a b : Int × Int × String) : Bool :=
  if a.1 ≠ b.1 then a.1 > b.1
  else if a.2.1 ≠ b.2.1 then a.2.1 > b.2.1
  else PyStr.strLt b.2.2 a.2.2

/-- Mirror of `_select_eviction_candidate`: scan the table in insertion
order keeping the strictly greatest score, then apply the eviction
threshold to that single candidate. -/
def selectEvictionCandidate (st : PeerStore) (now : Int) : Option PeerRecord :=
  let best := st.peers.foldl (fun acc r =>
    match acc with
    | none => some r
    | some c => if scoreGt (score now r) (score now c) then some r else some c) none
  match best with
  | none => none
  | some c =>
      if c.consecutive_ping_failures ≥ 3 ∨ (score now c).2.1 > st.peer_timeout_ms then some c
      else none

/-- Mirror of `PeerStore.upsert`. -/
def upsert (st : PeerStore) (addr : String) (node_id : Option String)
    (last_seen_ts_ms : Option Int) (source : String) (mark_hello_verified : Bool)
    (now_ts_ms : Int) : PeerStore × UpsertResult :=
  if addr = st.self_addr then (st, ⟨"ignored", "self", none⟩)
  else if st.peers.any (fun r => r.addr == addr) then
    let peers1 := st.peers.map (fun r =>
      if r.addr = addr then
        { r with
          node_id := if pyTruthy node_id then node_id else r.node_id,
          last_seen_ts_ms := match last_seen_ts_ms with
            | some v => some v
            | none => r.last_seen_ts_ms,
          source := source,
          is_verified_hello := r.is_verified_hello || mark_hello_verified }
      else r)
    ({ st with peers := peers1 }, ⟨"updated", "existing", none⟩)
  else if st.peers.length ≥ st.peer_limit then
    match selectEvictionCandidate st now_ts_ms with
    | none => (st, ⟨"ignored", "peer_limit_reject", none⟩)
    | some ev =>
        let peers1 := st.peers.filter (fun r => r.addr ≠ ev.addr)
        let record : PeerRecord :=
          { addr := addr, node_id := node_id, last_seen_ts_ms := last_seen_ts_ms,
            is_verified_hello := mark_hello_verified, source := source }
        ({ st with peers := peers1 ++ [record] }, ⟨"added", "new", some ev.addr⟩)
  else
    let record : PeerRecord :=
      { addr := addr, node_id := node_id, last_seen_ts_ms := last_seen_ts_ms,
        is_verified_hello := mark_hello_verified, source := source }
    ({ st with peers := st.peers ++ [record] }, ⟨"added", "new", none⟩)

/-- Iteration of `list_for_peers_list` over the sorted addresses: skip self,
excluded addresses and records without a truthy `node_id`; the limit is
checked after each append. -/
def lfplGo (st : PeerStore) (limit : Int) (excl : List String) :
    List String → List PeerEntryPy → List PeerEntryPy
  | [], acc => acc
  | a :: rest, acc =>
      if a = st.self_addr ∨ excl.contains a then lfplGo st limit excl rest acc
      else
        match st.peers.find? (fun r => r.addr == a) with
        | none => lfplGo st limit excl rest acc
        | some r =>
            if pyTruthy r.node_id then
              let acc1 := acc ++ [PeerEntryPy.mk (r.node_id.getD "") r.addr]
              if (Int.ofNat acc1.length) ≥ limit then acc1 else lfplGo st limit excl rest acc1
            else lfplGo st limit excl rest acc

/-- Mirror of `PeerStore.list_for_peers_list` (`sorted(self._peers)` sorts
the address keys ascending). -/
def listForPeersList (st : PeerStore) (limit : Int) (excl : List String) :
    List PeerEntryPy :=
  lfplGo st limit excl (PyStr.sortStrs (st.peers.map (·.addr))) []

/-- Mirror of `config.parse_host_port`: split at the last colon, strip the
host, demand a nonempty host and an integer port in `[1, 65535]`. -/
def nrParseHostPort (raw : String) : Option (String × Int) :=
  let parts := PyStr.splitCols raw
  if parts.length < 2 then none
  else
    let host := PyStr.strStrip (String.intercalate ":" parts.dropLast)
    let portRaw := parts.getLastD ""
    if host = "" then none
    else match PyStr.parseIntStr portRaw with
      | none => none
      | some port => if port < 1 ∨ port > 65535 then none else some (host, port)

/-- Mirror of the `NodeRuntime` state used by the message handlers. -/
structure Runtime where
  node_id : String
  peer_limit : Nat
  k_pow : Nat
  store : PeerStore
  uuids : List String
deriving DecidableEq, Repr

/-- Mirror of `messages.make_message` (non-GOSSIP kinds carry no `ttl`,
which the shared envelope structure records as the default 0). -/
def makeMessage (rt : Runtime) (msg_type : String) (payload : Payload) (now : Int) :
    Runtime × Msg :=
  let (u, us) := drawUuid rt.uuids
  ({ rt with uuids := us },
   { msg_id := u, msg_type := msg_type, sender_id := rt.node_id,
     sender_addr := rt.store.self_addr, timestamp_ms := now, payload := payload })

/-- Mirror of `_touch_sender`. -/
def touchSender (rt : Runtime) (m : Msg) (source : String) (mark_hello_verified : Bool)
    (now : Int) : Runtime × UpsertResult :=
  let (st, res) := upsert rt.store m.sender_addr (some m.sender_id) (some now) source
      mark_hello_verified now
  ({ rt with store := st }, res)

/-- Mirror of `_create_pow`: draw 32-bit nonces from the seeded PRNG stream
until the digest over `f"{nonce}{node_id}"` — nonce first — meets the
target; explicit fuel stands for the unbounded loop. -/
def createPow (node_id : String) (k : Nat) : List Nat → Nat → Option PowPayload
  | _, 0 => none
  | rs, fuel + 1 =>
      let (d, rs1) := GossipPy.drawNat rs
      let nonce := d % 4294967296
      let digest := Sha256.sha256hex (toString nonce ++ node_id)
      if PyStr.strStarts digest (GossipPy.zeroTarget k) then
        some { hash_alg := "sha256", difficulty_k := Int.ofNat k, nonce := Int.ofNat nonce,
               digest_hex := digest }
      else createPow node_id k rs1 fuel

/-- Mirror of `_validate_hello`: capabilities must contain `udp` and `json`
after lowercasing; with `k_pow > 0` the `pow` object must be present, carry
`hash_alg = "sha256"`, the configured difficulty, a nonempty digest equal to
`sha256(f"{nonce}{sender_id}")` — nonce first — and the zero target. -/
def validateHello (rt : Runtime) (m : Msg) : Bool × String :=
  let capSet := m.payload.capabilities.map PyStr.strLower
  if ¬ (capSet.contains "udp" && capSet.contains "json") then
    (false, "capabilities_missing_udp_json")
  else if rt.k_pow = 0 then (true, "ok")
  else
    match m.payload.pow with
    | none => (false, "pow_missing")
    | some p =>
        if p.hash_alg ≠ "sha256" then (false, "pow_hash_alg_invalid")
        else if p.difficulty_k ≠ Int.ofNat rt.k_pow then (false, "pow_difficulty_mismatch")
        else if p.digest_hex = "" then (false, "pow_digest_invalid_type")
        else
          let expected := Sha256.sha256hex (toString p.nonce ++ m.sender_id)
          if p.digest_hex ≠ expected then (false, "pow_digest_mismatch")
          else if ¬ PyStr.strStarts p.digest_hex (GossipPy.zeroTarget rt.k_pow) then
            (false, "pow_difficulty_not_met")
          else (true, "ok")

/-- Mirror of `handle_hello`: a failed validation only logs; an accepted
HELLO upserts the sender as verified.  No reply is sent on either path. -/
def handleHello (rt : Runtime) (m : Msg) (now : Int) : Runtime × List Send :=
  if (validateHello rt m).1 then
    ((touchSender rt m "hello" true now).1, [])
  else (rt, [])

/-- Mirror of `handle_get_peers`. -/
def handleGetPeers (rt : Runtime) (m : Msg) (peer : String) (now : Int) :
    Runtime × List Send :=
  let requested : Option (Option Int) :=
    match m.payload.max_peers with
    | none => some none
    | some v => if v < 1 then none else some (some v)
  match requested with
  | none => (rt, [])
  | some requestedMax =>
      let rt1 := (touchSender rt m "hello" false now).1
      let limit := min (requestedMax.getD (Int.ofNat rt1.peer_limit)) (Int.ofNat rt1.peer_limit)
      let excl := [rt1.store.self_addr, m.sender_addr]
      let peersPayload := listForPeersList rt1.store limit excl
      match nrParseHostPort peer with
      | none => (rt1, [])
      | some tuple =>
          let (rt2, reply) := makeMessage rt1 "PEERS_LIST" { peers := peersPayload } now
          (rt2, [Send.mk reply tuple])

end NodePy

namespace NodePy

/-- Address column of the peer table. -/
def storeAddrs (st : PeerStore) : List String := st.peers.map (·.addr)

/-- One call to `PeerStore.upsert`, as data. -/
structure UpsertArgs where
  addr : String
  node_id : Option String
  last_seen_ts_ms : Option Int
  source : String
  mark_hello_verified : Bool
  now_ts_ms : Int
deriving DecidableEq, Repr

/-- Apply a sequence of `upsert` calls (the only operation of `PeerStore`
that mutates the table). -/
def upsertMany (st : PeerStore) (ops : List UpsertArgs) : PeerStore :=
  ops.foldl (fun acc o =>
    (upsert acc o.addr o.node_id o.last_seen_ts_ms o.source o.mark_hello_verified
      o.now_ts_ms).1) st

/-- The eviction threshold applied to a candidate by
`_select_eviction_candidate`. -/
def evictQualifies (st : PeerStore) (now : Int) (r : PeerRecord) : Prop :=
  r.consecutive_ping_failures ≥ 3 ∨ (score now r).2.1 > st.peer_timeout_ms

instance (st : PeerStore) (now : Int) (r : PeerRecord) :
    Decidable (evictQualifies st now r) :=
  inferInstanceAs (Decidable (_ ∨ _))

/-- Modelled from the spec's words, for comparison with the code: order the
candidates by `(missed_pongs desc, staleness desc, addr asc)`, so `a` beats
`b` when it has more failures, or equal failures and more staleness, or
equal both and the smaller address. -/
def specBetter (now : Int) (a b : PeerRecord) : Bool :=
  if a.consecutive_ping_failures ≠ b.consecutive_ping_failures then
    a.consecutive_ping_failures > b.consecutive_ping_failures
  else if (score now a).2.1 ≠ (score now b).2.1 then (score now a).2.1 > (score now b).2.1
  else PyStr.strLt a.addr b.addr

/-- Modelled from the spec's words: the eviction candidate the claim
describes — the peer maximal in the `(missed_pongs desc, staleness desc,
addr asc)` order. -/
def specEvictionChoice (st : PeerStore) (now : Int) : Option PeerRecord :=
  st.peers.foldl (fun acc r =>
    match acc with
    | none => some r
    | some c => if specBetter now r c then some r else some c) none

end NodePy

namespace GossipPy

/-- Upper bound on the number of uuid4 draws one event can cause (PEERS_LIST
may send one HELLO per listed entry; a ping tick draws for the envelope and
for `ping_id`; a discovery tick sends to at most `fanout` peers). -/
def uuidNeed (cfg : NodeConfig) : Event → Nat
  | .recv m _ _ => 1 + m.payload.peers.length
  | .stdinLine _ _ => 1
  | .pingTick _ => 2
  | .pullTick _ => 1
  | .discoveryTick _ => cfg.fanout

/-- Total uuid4 draw bound for a run. -/
def needTotal (cfg : NodeConfig) (es : List Event) : Nat :=
  (es.map (uuidNeed cfg)).sum

/-- The message ids of the inbound datagrams of a run. -/
def recvIds (es : List Event) : List String :=
  es.filterMap (fun e =>
    match e with
    | .recv m _ _ => some m.msg_id
    | _ => none)

/-- Freshness of the uuid4 entropy stream with respect to a run: the stream
is long enough, has no repeats, and its values collide neither with ids
already seen nor with ids of inbound datagrams.  Real uuid4 values satisfy
this with overwhelming probability; the SeenSet discipline relies on it. -/
def UuidFresh (s : NodeState) (es : List Event) : Prop :=
  needTotal s.cfg es ≤ s.uuids.length ∧ s.uuids.Nodup ∧
  ∀ u ∈ s.uuids, u ∉ s.seen_msgs ∧ u ∉ recvIds es

/-- Equality of every component of the node state except the uuid4 entropy
stream. -/
def coreEq (s1 s2 : NodeState) : Prop :=
  s1.cfg = s2.cfg ∧ s1.node_id = s2.node_id ∧ s1.self_addr = s2.self_addr ∧
  s1.peers = s2.peers ∧ s1.seen_msgs = s2.seen_msgs ∧
  s1.gossip_cache = s2.gossip_cache ∧ s1.hello_pow = s2.hello_pow ∧ s1.rng = s2.rng

instance (s1 s2 : NodeState) : Decidable (coreEq s1 s2) :=
  inferInstanceAs (Decidable (_ ∧ _ ∧ _ ∧ _ ∧ _ ∧ _ ∧ _ ∧ _))

/-- A run whose inbound events are exclusively GOSSIP datagrams. -/
def GossipOnly (es : List Event) : Prop :=
  ∀ e ∈ es, match e with
    | Event.recv m _ _ => m.msg_type = "GOSSIP"
    | _ => False

end GossipPy

namespace NodePy

/-- Concrete store for the C3 analysis: two peers tied on failures and
staleness, distinguished only by address. -/
def c3StoreTie : PeerStore :=
  { self_addr := "s:1", peer_limit := 2, peer_timeout_ms := 1000,
    peers := [{ addr := "a:1", node_id := some "a", last_seen_ts_ms := some 0,
                consecutive_ping_failures := 3 },
              { addr := "b:1", node_id := some "b", last_seen_ts_ms := some 0,
                consecutive_ping_failures := 3 }] }

/-- Concrete store for the C3 analysis: the score-maximal peer fails the
thresholds while the other peer's staleness exceeds the timeout. -/
def c3StoreShade : PeerStore :=
  { self_addr := "s:1", peer_limit := 2, peer_timeout_ms := 1000,
    peers := [{ addr := "a:1", node_id := some "a", last_seen_ts_ms := some 4900,
                consecutive_ping_failures := 2 },
              { addr := "b:1", node_id := some "b", last_seen_ts_ms := some 0,
                consecutive_ping_failures := 0 }] }

end NodePy

namespace GossipPy

/-- A small concrete configuration for the concrete-run theorems. -/
def cCfg : NodeConfig :=
  { fanout := 3, ttl := 8, peer_limit := 10, peer_timeout := 6,
    pull_interval := 2, discovery_interval := 4, ihave_max_ids := 32, pow_k := 0 }

/-- The same configuration with PoW admission enabled. -/
def cCfgPow : NodeConfig := { cCfg with pow_k := 1 }

/-- A concrete node knowing one peer. -/
def cNode1 : NodeState :=
  { cfg := cCfg, node_id := "self", self_addr := ("127.0.0.1", 9000),
    peers := [("p", { node_id := "p", addr := ("h", 1), last_seen := 0 })],
    uuids := ["u1", "u2"], rng := [0, 1] }

/-- The same concrete node with PoW admission enabled. -/
def cNode1Pow : NodeState := { cNode1 with cfg := cCfgPow }

end GossipPy

namespace GossipPy

/-- A concrete HELLO advertising only the `udp` capability. -/
def cHelloUdp : Msg :=
  { msg_type := "HELLO", msg_id := "h1", sender_id := "s", sender_addr := "h:3",
    payload := { capabilities := ["udp"] } }

end GossipPy

namespace NodePy

/-- A concrete runtime state for the handler theorems. -/
def cRt : Runtime :=
  { node_id := "n", peer_limit := 5, k_pow := 0,
    store := { self_addr := "s:1", peer_limit := 5, peer_timeout_ms := 1000 },
    uuids := ["u1"] }

end NodePy

namespace GossipPy

/-- A concrete GET_PEERS request with `max_peers = 1`. -/
def cGetPeers1 : Msg :=
  { msg_type := "GET_PEERS", msg_id := "g1", sender_id := "q", sender_addr := "h:2",
    payload := { max_peers := some 1 } }

end GossipPy

namespace GossipPy

/-- The ids a step can newly add to the seen set: the id of an inbound
datagram, or the uuid4 value a stdin origination draws. -/
def eventNewIds (s : NodeState) : Event → List String
  | .recv m _ _ => [m.msg_id]
  | .stdinLine _ _ => [(drawUuid s.uuids).1]
  | _ => []

end GossipPy

namespace GossipPy

instance (s : NodeState) (es : List Event) : Decidable (UuidFresh s es) :=
  inferInstanceAs (Decidable (_ ∧ _ ∧ _))

/-- A concrete duplicate GOSSIP datagram (its id is already seen below). -/
def cDupG : Msg :=
  { msg_type := "GOSSIP", msg_id := "d1", sender_id := "q", sender_addr := "h:2", ttl := 3 }

/-- A concrete node that has already seen `d1`. -/
def cNodeSeen : NodeState := { cNode1 with seen_msgs := ["d1"] }

/-- A concrete fresh GOSSIP datagram with a forwardable ttl. -/
def cFreshG : Msg :=
  { msg_type := "GOSSIP", msg_id := "g7", sender_id := "q", sender_addr := "h:2", ttl := 2,
    payload := { topic := "user", data := "x" } }

/-- A concrete PING datagram. -/
def cPingM : Msg :=
  { msg_type := "PING", msg_id := "p1", sender_id := "p", sender_addr := "h:1",
    payload := { ping_id := "pp", seq := 4 } }

/-- `cNode1` with a different uuid4 entropy stream and everything else equal. -/
def cNodeU2 : NodeState := { cNode1 with uuids := ["w1", "w2"] }

end GossipPy

section Claims

/-- Standard test vector: digest of the empty string. -/
theorem sha256hex_empty :
    Sha256.sha256hex "" =
      "e3b0c44298fc1c149afbf4c8996fb92427ae41e4649b934ca495991b7852b855" := by
  decide

/-- Standard test vector: digest of "abc". -/
theorem sha256hex_abc :
    Sha256.sha256hex "abc" =
      "ba7816bf8f01cfea414140de5dae2223b00361a396177a9cb410ff61f20015ad" := by
  decide

/-- C10: `PeerStore.upsert` on an address already present updates in place:
the action is `updated`, nothing is evicted, the size is unchanged, entries
at other addresses are unchanged, the matching entry keeps its address,
ping bookkeeping and rtt fields, and `is_verified_hello` is never cleared
once set. -/
theorem C10_upsert_existing_frame
    (st : NodePy.PeerStore) (addr : String) (nid : Option String) (ls : Option Int)
    (src : String) (v : Bool) (now : Int)
    (hself : addr ≠ st.self_addr)
    (hmem : st.peers.any (fun r => r.addr == addr) = true) :
    (NodePy.upsert st addr nid ls src v now).2.action = "updated" ∧
    (NodePy.upsert st addr nid ls src v now).2.evicted = none ∧
    (NodePy.upsert st addr nid ls src v now).1.peers.length = st.peers.length ∧
    (∀ r ∈ st.peers, r.addr ≠ addr → r ∈ (NodePy.upsert st addr nid ls src v now).1.peers) ∧
    (∀ r' ∈ (NodePy.upsert st addr nid ls src v now).1.peers, ∃ r ∈ st.peers,
      r'.addr = r.addr ∧
      r'.consecutive_ping_failures = r.consecutive_ping_failures ∧
      r'.last_ping_sent_ms = r.last_ping_sent_ms ∧
      r'.pending_ping_id = r.pending_ping_id ∧
      r'.pending_ping_seq = r.pending_ping_seq ∧
      r'.rtt_ms = r.rtt_ms ∧
      (r.is_verified_hello = true → r'.is_verified_hello = true) ∧
      (r.addr ≠ addr → r' = r)) := by
  simp only [NodePy.upsert, if_neg hself, hmem, if_pos rfl]
  refine ⟨rfl, rfl, List.length_map .., ?_, ?_⟩
  · intro r hr hne
    refine List.mem_map.mpr ⟨r, hr, ?_⟩
    simp [hne]
  · intro r' hr'
    obtain ⟨r, hr, rfl⟩ := List.mem_map.mp hr'
    refine ⟨r, hr, ?_⟩
    by_cases h : r.addr = addr <;> (simp [h]; try tauto)

/-- C10 witness: a concrete two-entry store updated at an existing address. -/
theorem C10_upsert_existing_frame_witness :
    (("a:1" : String) ≠ "s:1") ∧
    (([({ addr := "a:1", node_id := some "x", last_seen_ts_ms := some 1 } : NodePy.PeerRecord),
       { addr := "b:1", node_id := none, last_seen_ts_ms := none,
         is_verified_hello := true }].any (fun r => r.addr == "a:1")) = true) ∧
    (NodePy.upsert
      { self_addr := "s:1", peer_limit := 5, peer_timeout_ms := 1000,
        peers := [{ addr := "a:1", node_id := some "x", last_seen_ts_ms := some 1 },
                  { addr := "b:1", node_id := none, last_seen_ts_ms := none,
                    is_verified_hello := true }] }
      "a:1" (some "y") (some 7) "hello" true 9).2.action = "updated" := by
  refine ⟨by decide, by decide, ?_⟩
  exact (C10_upsert_existing_frame
    { self_addr := "s:1", peer_limit := 5, peer_timeout_ms := 1000,
      peers := [{ addr := "a:1", node_id := some "x", last_seen_ts_ms := some 1 },
                { addr := "b:1", node_id := none, last_seen_ts_ms := none,
                  is_verified_hello := true }] }
    "a:1" (some "y") (some 7) "hello" true 9 (by decide) (by decide)).1

/-- Helper: `upsert` never changes the stored self address. -/
theorem upsertSelfAddr (st : NodePy.PeerStore) (a : String) (nid : Option String)
    (ls : Option Int) (src : String) (v : Bool) (now : Int) :
    (NodePy.upsert st a nid ls src v now).1.self_addr = st.self_addr := by
  unfold NodePy.upsert
  split
  · rfl
  · split
    · rfl
    · split
      · split <;> rfl
      · rfl

/-- Helper: an address-preserving rewrite of the records keeps the address
column and hence its properties. -/
theorem mapAddrCol (l : List NodePy.PeerRecord) (f : NodePy.PeerRecord → NodePy.PeerRecord)
    (hf : ∀ r, (f r).addr = r.addr) :
    (l.map f).map (·.addr) = l.map (·.addr) := by
  rw [List.map_map]
  apply List.map_congr_left
  intro r _
  exact hf r

/-- Helper: one `upsert` preserves distinctness of the address keys and the
absence of the self address. -/
theorem upsertKeepsInv (st : NodePy.PeerStore) (a : String) (nid : Option String)
    (ls : Option Int) (src : String) (v : Bool) (now : Int)
    (hN : (NodePy.storeAddrs st).Nodup)
    (hS : ∀ r ∈ st.peers, r.addr ≠ st.self_addr) :
    (NodePy.storeAddrs (NodePy.upsert st a nid ls src v now).1).Nodup ∧
    ∀ r ∈ (NodePy.upsert st a nid ls src v now).1.peers,
      r.addr ≠ (NodePy.upsert st a nid ls src v now).1.self_addr := by
  rw [upsertSelfAddr st a nid ls src v now]
  unfold NodePy.upsert
  by_cases hself : a = st.self_addr
  · simp only [if_pos hself]
    exact ⟨hN, hS⟩
  simp only [if_neg hself]
  by_cases hmem : (st.peers.any fun r => r.addr == a) = true
  · rw [if_pos hmem]
    have hf : ∀ r : NodePy.PeerRecord,
        ((fun r : NodePy.PeerRecord =>
          if r.addr = a then
            { r with
              node_id := if NodePy.pyTruthy nid then nid else r.node_id,
              last_seen_ts_ms := match ls with
                | some w => some w
                | none => r.last_seen_ts_ms,
              source := src,
              is_verified_hello := r.is_verified_hello || v }
          else r) r).addr = r.addr := by
      intro r
      by_cases h : r.addr = a <;> simp [h]
    constructor
    · simp only [NodePy.storeAddrs]
      rw [mapAddrCol _ _ hf]
      exact hN
    · intro r hr
      obtain ⟨q, hq, rfl⟩ := List.mem_map.mp hr
      rw [hf q]
      exact hS q hq
  rw [if_neg hmem]
  have hnotin : a ∉ st.peers.map (·.addr) := by
    intro hmm
    obtain ⟨q, hq, hqa⟩ := List.mem_map.mp hmm
    exact hmem (List.any_eq_true.mpr ⟨q, hq, by simp [hqa]⟩)
  by_cases hfull : st.peers.length ≥ st.peer_limit
  · rw [if_pos hfull]
    cases hsel : NodePy.selectEvictionCandidate st now with
    | none => exact ⟨hN, hS⟩
    | some ev =>
        have hsub : ((st.peers.filter (fun r => r.addr ≠ ev.addr)).map (·.addr)).Sublist
            (st.peers.map (·.addr)) := (List.filter_sublist _).map _
        have hnd : ((st.peers.filter (fun r => r.addr ≠ ev.addr)).map (·.addr)).Nodup :=
          hN.sublist hsub
        have hna : a ∉ (st.peers.filter (fun r => r.addr ≠ ev.addr)).map (·.addr) :=
          fun hmm => hnotin (hsub.subset hmm)
        constructor
        · simp only [NodePy.storeAddrs, List.map_append, List.map_cons, List.map_nil]
          exact List.Nodup.append hnd (List.nodup_singleton a)
            (List.disjoint_singleton.mpr hna)
        · intro r hr
          rcases List.mem_append.mp hr with hr | hr
          · exact hS r (List.mem_of_mem_filter hr)
          · simp only [List.mem_singleton] at hr
            subst hr
            exact hself
  · rw [if_neg hfull]
    constructor
    · simp only [NodePy.storeAddrs, List.map_append, List.map_cons, List.map_nil]
      exact List.Nodup.append hN (List.nodup_singleton a)
        (List.disjoint_singleton.mpr hnotin)
    · intro r hr
      rcases List.mem_append.mp hr with hr | hr
      · exact hS r hr
      · simp only [List.mem_singleton] at hr
        subst hr
        exact hself

/-- Helper: the invariant carries over any sequence of `upsert` calls. -/
theorem upsertManyKeepsInv (ops : List NodePy.UpsertArgs) :
    ∀ st : NodePy.PeerStore, (NodePy.storeAddrs st).Nodup →
    (∀ r ∈ st.peers, r.addr ≠ st.self_addr) →
    (NodePy.storeAddrs (NodePy.upsertMany st ops)).Nodup ∧
    ∀ r ∈ (NodePy.upsertMany st ops).peers,
      r.addr ≠ (NodePy.upsertMany st ops).self_addr := by
  induction ops with
  | nil =>
      intro st hN hS
      exact ⟨hN, hS⟩
  | cons o rest ih =>
      intro st hN hS
      have h1 := upsertKeepsInv st o.addr o.node_id o.last_seen_ts_ms o.source
        o.mark_hello_verified o.now_ts_ms hN hS
      have hsa := upsertSelfAddr st o.addr o.node_id o.last_seen_ts_ms o.source
        o.mark_hello_verified o.now_ts_ms
      have := ih _ h1.1 (by
        intro r hr
        exact h1.2 r hr)
      simpa [NodePy.upsertMany] using this

/-- Helper: `upsertMany` never changes the stored self address. -/
theorem upsertManySelfAddr (ops : List NodePy.UpsertArgs) :
    ∀ st : NodePy.PeerStore, (NodePy.upsertMany st ops).self_addr = st.self_addr := by
  induction ops with
  | nil => intro st; rfl
  | cons o rest ih =>
      intro st
      have : NodePy.upsertMany st (o :: rest) =
          NodePy.upsertMany (NodePy.upsert st o.addr o.node_id o.last_seen_ts_ms o.source
            o.mark_hello_verified o.now_ts_ms).1 rest := rfl
      rw [this, ih, upsertSelfAddr]

/-- C8 amended: for the address-keyed `PeerStore` of `src/node.py` the
invariant holds — starting from the empty table, after any sequence of
`upsert` calls (the only mutating operation, used by the HELLO, GET_PEERS,
PEERS_LIST, PING and PONG handlers) no two entries share an `addr` and no
entry carries the store's own address.  The node-id-keyed table of
`gossip_node.py` violates the claim, see the counterexample. -/
theorem C8_peerstore_addr_invariant (self : String) (lim : Nat) (tout : Int)
    (ops : List NodePy.UpsertArgs) :
    (NodePy.storeAddrs (NodePy.upsertMany ⟨self, lim, tout, []⟩ ops)).Nodup ∧
    ∀ r ∈ (NodePy.upsertMany ⟨self, lim, tout, []⟩ ops).peers, r.addr ≠ self := by
  have h := upsertManyKeepsInv ops ⟨self, lim, tout, []⟩ (by simp [NodePy.storeAddrs])
    (by intro r hr; simp at hr)
  refine ⟨h.1, ?_⟩
  have hsa := upsertManySelfAddr ops ⟨self, lim, tout, []⟩
  intro r hr
  have := h.2 r hr
  rwa [hsa] at this

set_option maxRecDepth 100000 in
/-- C8 counterexample: a `GossipNode` at `127.0.0.1:9000` that receives one
PEERS_LIST containing the entry `{node_id: "x", addr: "127.0.0.1:9000"}`
reaches a state whose peer table contains the node's own address — the
node-id-keyed `_update_peer` never compares addresses against self. -/
theorem C8_counterexample :
    ((GossipPy.run
      { cfg := { fanout := 3, ttl := 8, peer_limit := 10, peer_timeout := 6,
                 pull_interval := 2, discovery_interval := 4, ihave_max_ids := 32,
                 pow_k := 0 },
        node_id := "self", self_addr := ("127.0.0.1", 9000),
        uuids := ["u1"], rng := [0] }
      [GossipPy.Event.recv
        { msg_type := "PEERS_LIST", msg_id := "pl1", sender_id := "s",
          payload := { peers := [⟨"x", "127.0.0.1:9000"⟩] } }
        ("127.0.0.1", 9001) 100]).1.peers.any
      (fun kv => kv.2.addr == ("127.0.0.1", 9000))) = true := by
  decide

/-- Helper: the code-point order is irreflexive. -/
theorem charListLt_irrefl : ∀ l : List Char, PyStr.charListLt l l = false
  | [] => rfl
  | a :: as => by
      simp only [PyStr.charListLt, lt_irrefl, if_false]
      exact charListLt_irrefl as

/-- Helper: equal code points give equal characters. -/
theorem charEqOfToNat {a b : Char} (h : a.toNat = b.toNat) : a = b :=
  Char.eq_of_val_eq (UInt32.ext h)

/-- Helper: the code-point order is transitive. -/
theorem charListLt_trans : ∀ {x y z : List Char},
    PyStr.charListLt x y = true → PyStr.charListLt y z = true →
    PyStr.charListLt x z = true
  | [], [], _ :: _, _, _ => rfl
  | [], _ :: _, _ :: _, _, _ => rfl
  | a :: as, b :: bs, c :: cs, h1, h2 => by
      simp only [PyStr.charListLt] at h1 h2 ⊢
      by_cases hab : a.toNat < b.toNat
      · by_cases hbc : b.toNat < c.toNat
        · have : a.toNat < c.toNat := Nat.lt_trans hab hbc
          simp [this]
        · by_cases hcb : c.toNat < b.toNat
          · simp [hab, hbc, hcb] at h2
          · have hbceq : b.toNat = c.toNat := by omega
            have : a.toNat < c.toNat := by omega
            simp [this]
      · by_cases hba : b.toNat < a.toNat
        · simp [hab, hba] at h1
        · have habeq : a.toNat = b.toNat := by omega
          by_cases hbc : b.toNat < c.toNat
          · have : a.toNat < c.toNat := by omega
            simp [this]
          · by_cases hcb : c.toNat < b.toNat
            · simp [hbc, hcb] at h2
            · have : ¬ a.toNat < c.toNat := by omega
              have h2' : ¬ c.toNat < a.toNat := by omega
              simp only [hab, hba, if_false] at h1
              simp only [hbc, hcb, if_false] at h2
              simp [this, h2']
              exact charListLt_trans h1 h2

/-- Helper: mutually incomparable character lists are equal. -/
theorem charListLt_connex : ∀ {x y : List Char},
    PyStr.charListLt x y = false → PyStr.charListLt y x = false → x = y
  | [], [], _, _ => rfl
  | [], _ :: _, h1, _ => by simp [PyStr.charListLt] at h1
  | _ :: _, [], _, h2 => by simp [PyStr.charListLt] at h2
  | a :: as, b :: bs, h1, h2 => by
      simp only [PyStr.charListLt] at h1 h2
      by_cases hab : a.toNat < b.toNat
      · simp [hab] at h1
      · by_cases hba : b.toNat < a.toNat
        · simp [hba] at h2
        · have ha : a = b := charEqOfToNat (by omega)
          subst ha
          simp only [lt_irrefl, if_false] at h1 h2
          rw [charListLt_connex h1 h2]

/-- Helper: Python string `<` is transitive. -/
theorem strLt_trans {x y z : String} (h1 : PyStr.strLt x y = true)
    (h2 : PyStr.strLt y z = true) : PyStr.strLt x z = true :=
  charListLt_trans h1 h2

/-- Helper: mutually incomparable strings are equal. -/
theorem strLt_connex {x y : String} (h1 : PyStr.strLt x y = false)
    (h2 : PyStr.strLt y x = false) : x = y := by
  cases x with
  | mk xd =>
      cases y with
      | mk yd =>
          have : xd = yd := charListLt_connex h1 h2
          rw [this]

/-- Helper: the eviction score comparison is irreflexive. -/
theorem scoreGt_irrefl (x : Int × Int × String) : NodePy.scoreGt x x = false := by
  simp [NodePy.scoreGt, PyStr.strLt, charListLt_irrefl]

/-- Helper: unfolding of the score comparison into its lexicographic
meaning. -/
theorem scoreGt_iff (a b : Int × Int × String) :
    NodePy.scoreGt a b = true ↔
      (b.1 < a.1 ∨ (a.1 = b.1 ∧ (b.2.1 < a.2.1 ∨
        (a.2.1 = b.2.1 ∧ PyStr.strLt b.2.2 a.2.2 = true)))) := by
  unfold NodePy.scoreGt
  by_cases e1 : a.1 = b.1
  · rw [if_neg (show ¬ a.1 ≠ b.1 from fun h => h e1)]
    by_cases e2 : a.2.1 = b.2.1
    · rw [if_neg (show ¬ a.2.1 ≠ b.2.1 from fun h => h e2)]
      constructor
      · intro h
        exact Or.inr ⟨e1, Or.inr ⟨e2, h⟩⟩
      · rintro (h | ⟨-, h | ⟨-, h⟩⟩)
        · omega
        · omega
        · exact h
    · rw [if_pos e2]
      constructor
      · intro h
        exact Or.inr ⟨e1, Or.inl (by simpa using h)⟩
      · rintro (h | ⟨-, h | ⟨h, -⟩⟩)
        · omega
        · simpa using h
        · exact absurd h e2
  · rw [if_pos e1]
    constructor
    · intro h
      exact Or.inl (by simpa using h)
    · rintro (h | ⟨h, -⟩)
      · simpa using h
      · exact absurd h e1

/-- Helper: the eviction score comparison is transitive. -/
theorem scoreGt_trans {a b c : Int × Int × String}
    (h1 : NodePy.scoreGt a b = true) (h2 : NodePy.scoreGt b c = true) :
    NodePy.scoreGt a c = true := by
  rw [scoreGt_iff] at h1 h2 ⊢
  rcases h1 with h1 | ⟨e1, h1⟩
  · rcases h2 with h2 | ⟨e2, h2⟩
    · exact Or.inl (by omega)
    · exact Or.inl (by omega)
  · rcases h2 with h2 | ⟨e2, h2⟩
    · exact Or.inl (by omega)
    · refine Or.inr ⟨by omega, ?_⟩
      rcases h1 with h1 | ⟨f1, h1⟩
      · rcases h2 with h2 | ⟨f2, h2⟩
        · exact Or.inl (by omega)
        · exact Or.inl (by omega)
      · rcases h2 with h2 | ⟨f2, h2⟩
        · exact Or.inl (by omega)
        · exact Or.inr ⟨by omega, strLt_trans h2 h1⟩

/-- Helper: mutually incomparable scores are equal. -/
theorem scoreGt_connex {a b : Int × Int × String}
    (h1 : NodePy.scoreGt a b = false) (h2 : NodePy.scoreGt b a = false) : a = b := by
  obtain ⟨a1, a2, a3⟩ := a
  obtain ⟨b1, b2, b3⟩ := b
  have h1' : ¬ (b1 < a1 ∨ (a1 = b1 ∧ (b2 < a2 ∨ (a2 = b2 ∧ PyStr.strLt b3 a3 = true)))) := by
    intro hh
    rw [(scoreGt_iff (a1, a2, a3) (b1, b2, b3)).mpr hh] at h1
    cases h1
  have h2' : ¬ (a1 < b1 ∨ (b1 = a1 ∧ (a2 < b2 ∨ (b2 = a2 ∧ PyStr.strLt a3 b3 = true)))) := by
    intro hh
    rw [(scoreGt_iff (b1, b2, b3) (a1, a2, a3)).mpr hh] at h2
    cases h2
  push_neg at h1' h2'
  have e1 : a1 = b1 := by
    have := h1'.1
    have := h2'.1
    omega
  have e2 : a2 = b2 := by
    have := h1'.2 e1
    have := h2'.2 e1.symm
    omega
  have e3 : a3 = b3 := by
    have k1 := (h1'.2 e1).2 e2
    have k2 := (h2'.2 e1.symm).2 e2.symm
    have k1' : PyStr.strLt b3 a3 = false := by
      cases hb : PyStr.strLt b3 a3
      · rfl
      · exact absurd hb k1
    have k2' : PyStr.strLt a3 b3 = false := by
      cases hb : PyStr.strLt a3 b3
      · rfl
      · exact absurd hb k2
    exact (strLt_connex k2' k1')
  rw [e1, e2, e3]

/-- Helper: negative transitivity of the score comparison. -/
theorem scoreGt_negtrans {a b c : Int × Int × String}
    (h1 : NodePy.scoreGt a b = false) (h2 : NodePy.scoreGt b c = false) :
    NodePy.scoreGt a c = false := by
  cases hac : NodePy.scoreGt a c
  · rfl
  · cases hba : NodePy.scoreGt b a
    · have := scoreGt_connex h1 hba
      rw [this] at hac
      rw [hac] at h2
      cases h2
    · have := scoreGt_trans hba hac
      rw [this] at h2
      cases h2

/-- Helper: the best-score fold of `_select_eviction_candidate` returns an
element no other scanned record strictly beats. -/
theorem foldBest_go (now : Int) :
    ∀ (l : List NodePy.PeerRecord) (c : NodePy.PeerRecord),
    ∃ c', l.foldl (fun acc r =>
        match acc with
        | none => some r
        | some cc => if NodePy.scoreGt (NodePy.score now r) (NodePy.score now cc)
                     then some r else some cc) (some c) = some c' ∧
      c' ∈ c :: l ∧
      ∀ r ∈ c :: l, NodePy.scoreGt (NodePy.score now r) (NodePy.score now c') = false := by
  intro l
  induction l with
  | nil =>
      intro c
      refine ⟨c, rfl, List.mem_singleton_self c, ?_⟩
      intro r hr
      rw [List.mem_singleton.mp hr]
      exact scoreGt_irrefl _
  | cons r rest ih =>
      intro c
      by_cases h : NodePy.scoreGt (NodePy.score now r) (NodePy.score now c) = true
      · obtain ⟨c', hfold, hmem, hall⟩ := ih r
        refine ⟨c', ?_, ?_, ?_⟩
        · simp only [List.foldl_cons, h, if_pos]
          exact hfold
        · rcases List.mem_cons.mp hmem with hc | hc
          · exact List.mem_cons.mpr (Or.inr (List.mem_cons.mpr (Or.inl hc)))
          · exact List.mem_cons.mpr (Or.inr (List.mem_cons.mpr (Or.inr hc)))
        · intro x hx
          rcases List.mem_cons.mp hx with hx | hx
          · subst hx
            cases hcc : NodePy.scoreGt (NodePy.score now x) (NodePy.score now c')
            · rfl
            · have h1 := scoreGt_trans h hcc
              have h2 := hall r (List.mem_cons_self r rest)
              rw [h1] at h2
              cases h2
          · exact hall x hx
      · have h' : NodePy.scoreGt (NodePy.score now r) (NodePy.score now c) = false := by
          cases hb : NodePy.scoreGt (NodePy.score now r) (NodePy.score now c)
          · rfl
          · exact absurd hb h
        obtain ⟨c', hfold, hmem, hall⟩ := ih c
        refine ⟨c', ?_, ?_, ?_⟩
        · simp only [List.foldl_cons, h', if_neg, Bool.false_eq_true, not_false_eq_true]
          exact hfold
        · rcases List.mem_cons.mp hmem with hc | hc
          · exact List.mem_cons.mpr (Or.inl hc)
          · exact List.mem_cons.mpr (Or.inr (List.mem_cons.mpr (Or.inr hc)))
        · intro x hx
          rcases List.mem_cons.mp hx with hx | hx
          · exact hall x (List.mem_cons.mpr (Or.inl hx))
          · rcases List.mem_cons.mp hx with hx | hx
            · subst hx
              exact scoreGt_negtrans h' (hall c (List.mem_cons_self c rest))
            · exact hall x (List.mem_cons.mpr (Or.inr hx))

/-- Helper: `_select_eviction_candidate` returns the fold maximum filtered
by the threshold. -/
theorem selectCand_spec (st : NodePy.PeerStore) (now : Int) (hne : st.peers ≠ []) :
    ∃ c ∈ st.peers,
      (∀ r ∈ st.peers, NodePy.scoreGt (NodePy.score now r) (NodePy.score now c) = false) ∧
      NodePy.selectEvictionCandidate st now =
        (if NodePy.evictQualifies st now c then some c else none) := by
  rcases hp : st.peers with _ | ⟨h, t⟩
  · exact absurd hp hne
  obtain ⟨c', hfold, hmem, hall⟩ := foldBest_go now t h
  refine ⟨c', ?_, ?_, ?_⟩
  · exact hmem
  · exact hall
  · unfold NodePy.selectEvictionCandidate
    rw [hp]
    simp only [List.foldl_cons]
    rw [hfold]
    unfold NodePy.evictQualifies
    by_cases hq : c'.consecutive_ping_failures ≥ 3 ∨ (NodePy.score now c').2.1 > st.peer_timeout_ms
    · simp [hq]
    · simp [hq]

/-- C3 amended: at capacity, `upsert` of a new peer evicts exactly the peer
maximal in the code's full lexicographic score order
`(missed_pongs, staleness, addr)` — the address component ties are broken
towards the *largest* address — when that single candidate has ≥ 3 missed
pongs or staleness above `peer_timeout_ms`; otherwise the admission is
rejected with the table unchanged, even if some other (non-maximal) peer
passes the thresholds. -/
theorem C3_eviction_characterization
    (st : NodePy.PeerStore) (now : Int) (a : String) (nid : Option String)
    (ls : Option Int) (src : String) (v : Bool)
    (hself : a ≠ st.self_addr)
    (hnot : (st.peers.any fun r => r.addr == a) = false)
    (hfull : st.peers.length ≥ st.peer_limit)
    (hne : st.peers ≠ []) :
    ∃ c ∈ st.peers,
      (∀ r ∈ st.peers, NodePy.scoreGt (NodePy.score now r) (NodePy.score now c) = false) ∧
      (NodePy.evictQualifies st now c →
        (NodePy.upsert st a nid ls src v now).2.evicted = some c.addr ∧
        (NodePy.upsert st a nid ls src v now).2.action = "added") ∧
      (¬ NodePy.evictQualifies st now c →
        (NodePy.upsert st a nid ls src v now).2.action = "ignored" ∧
        (NodePy.upsert st a nid ls src v now).1 = st) := by
  obtain ⟨c, hc, hmax, hsel⟩ := selectCand_spec st now hne
  have hnot' : ¬ (st.peers.any fun r => r.addr == a) = true := by
    rw [hnot]
    exact Bool.false_ne_true
  refine ⟨c, hc, hmax, ?_, ?_⟩
  · intro hq
    unfold NodePy.upsert
    rw [if_neg hself, if_neg hnot', if_pos hfull, hsel, if_pos hq]
    exact ⟨rfl, rfl⟩
  · intro hq
    unfold NodePy.upsert
    rw [if_neg hself, if_neg hnot', if_pos hfull, hsel, if_neg hq]
    exact ⟨rfl, rfl⟩

/-- C3 witness: a concrete full table where the characterization applies. -/
theorem C3_eviction_characterization_witness :
    (("c:1" : String) ≠ "s:1") ∧
    (∃ c ∈ NodePy.c3StoreTie.peers,
      (∀ r ∈ NodePy.c3StoreTie.peers,
        NodePy.scoreGt (NodePy.score 0 r) (NodePy.score 0 c) = false) ∧
      (NodePy.evictQualifies NodePy.c3StoreTie 0 c →
        (NodePy.upsert NodePy.c3StoreTie "c:1" (some "c") (some 0) "hello" false 0).2.evicted =
          some c.addr ∧
        (NodePy.upsert NodePy.c3StoreTie "c:1" (some "c") (some 0) "hello" false 0).2.action =
          "added") ∧
      (¬ NodePy.evictQualifies NodePy.c3StoreTie 0 c →
        (NodePy.upsert NodePy.c3StoreTie "c:1" (some "c") (some 0) "hello" false 0).2.action =
          "ignored" ∧
        (NodePy.upsert NodePy.c3StoreTie "c:1" (some "c") (some 0) "hello" false 0).1 =
          NodePy.c3StoreTie)) := by
  refine ⟨by decide, ?_⟩
  exact C3_eviction_characterization NodePy.c3StoreTie 0 "c:1" (some "c") (some 0) "hello"
    false (by decide) (by decide) (by decide) (by decide)

set_option maxRecDepth 100000 in
/-- C3 counterexample: with two peers tied on `(missed_pongs, staleness)` at
addresses `a:1` and `b:1`, the claim's order (addr ascending) selects `a:1`,
but the code evicts `b:1` — Python's tuple `max` breaks the address tie
towards the largest string; and with one peer of 2 failures / low staleness
shading a peer whose staleness exceeds the timeout, admission is rejected
although a qualifying peer exists. -/
theorem C3_counterexample :
    (NodePy.specEvictionChoice NodePy.c3StoreTie 0 =
      some { addr := "a:1", node_id := some "a", last_seen_ts_ms := some 0,
             consecutive_ping_failures := 3 }) ∧
    ((NodePy.upsert NodePy.c3StoreTie "c:1" (some "c") (some 0) "hello" false 0).2.evicted =
      some "b:1") ∧
    (("b:1" : String) ≠ "a:1") ∧
    ((NodePy.upsert NodePy.c3StoreShade "c:1" (some "c") (some 5000) "hello" false
        5000).2.action = "ignored") ∧
    (∃ r ∈ NodePy.c3StoreShade.peers, NodePy.evictQualifies NodePy.c3StoreShade 5000 r) := by
  refine ⟨by decide, by decide, by decide, by decide, ?_⟩
  refine ⟨{ addr := "b:1", node_id := some "b", last_seen_ts_ms := some 0,
            consecutive_ping_failures := 0 }, by decide, ?_⟩
  unfold NodePy.evictQualifies
  right
  decide

/-- C5: with `pow_k > 0`, a HELLO whose `pow` payload is absent or fails
`_verify_pow` is dropped with no side effect at all: the state (peer table
included) is unchanged and no datagram is emitted — `handle_datagram`
excludes HELLO from the generic sender upsert and `_on_hello` returns before
any reply. -/
theorem C5_hello_pow_reject (s : GossipPy.NodeState) (m : GossipPy.Msg)
    (addr : GossipPy.Addr) (now : Int)
    (hty : m.msg_type = "HELLO")
    (hk : 0 < s.cfg.pow_k)
    (hbad : m.payload.pow = none ∨
      ∃ p, m.payload.pow = some p ∧ GossipPy.verifyPow m.sender_id p s.cfg.pow_k = false) :
    GossipPy.handleDatagram s m addr now = (s, [], []) := by
  unfold GossipPy.handleDatagram
  by_cases hsid : m.sender_id = ""
  · rw [if_pos (Or.inr hsid)]
  · rw [if_neg (by
      rintro (h | h)
      · rw [hty] at h
        exact (by decide : ("HELLO" : String) ≠ "") h
      · exact hsid h)]
    have hpre : GossipPy.preUpdate s m addr now = s := by
      unfold GossipPy.preUpdate
      rw [if_neg (fun hc => hc.2 hty)]
    unfold GossipPy.dispatch
    rw [hpre, if_pos hty]
    unfold GossipPy.onHello
    rw [if_pos hk]
    rcases hbad with hb | ⟨p, hp, hv⟩
    · rw [hb]
      rfl
    · rw [hp]
      simp only [hv, Bool.false_eq_true, if_false]
      rfl

/-- C5 witness: a concrete PoW-gated node dropping a HELLO without `pow`. -/
theorem C5_hello_pow_reject_witness :
    (({ msg_type := "HELLO", msg_id := "h1", sender_id := "s" } : GossipPy.Msg).msg_type =
      "HELLO") ∧
    (0 < GossipPy.cNode1Pow.cfg.pow_k) ∧
    GossipPy.handleDatagram GossipPy.cNode1Pow
      { msg_type := "HELLO", msg_id := "h1", sender_id := "s" } ("h", 3) 7 =
      (GossipPy.cNode1Pow, [], []) := by
  refine ⟨by decide, by decide, ?_⟩
  exact C5_hello_pow_reject GossipPy.cNode1Pow
    { msg_type := "HELLO", msg_id := "h1", sender_id := "s" } ("h", 3) 7
    (by decide) (by decide) (Or.inl (by decide))

/-- C7 amended: in the `src/node.py` runtime, a HELLO whose lowercased
capabilities do not include both `udp` and `json` is rejected by
`_validate_hello`, so `handle_hello` neither upserts the sender nor sends
anything.  `GossipNode._on_hello` of `gossip_node.py` performs no capability
check at all, see the counterexample. -/
theorem C7_hello_capabilities (rt : NodePy.Runtime) (m : GossipPy.Msg) (now : Int)
    (hcaps : ((m.payload.capabilities.map PyStr.strLower).contains "udp" &&
              (m.payload.capabilities.map PyStr.strLower).contains "json") = false) :
    NodePy.handleHello rt m now = (rt, []) := by
  have hv : (NodePy.validateHello rt m).1 = false := by
    unfold NodePy.validateHello
    rw [if_pos]
    intro hcon
    rw [hcaps] at hcon
    cases hcon
  unfold NodePy.handleHello
  rw [hv]
  simp

/-- C7 witness: a HELLO advertising only `udp` is rejected without effect. -/
theorem C7_hello_capabilities_witness :
    (((GossipPy.cHelloUdp.payload.capabilities.map PyStr.strLower).contains "udp" &&
      (GossipPy.cHelloUdp.payload.capabilities.map PyStr.strLower).contains "json") = false) ∧
    NodePy.handleHello NodePy.cRt GossipPy.cHelloUdp 7 = (NodePy.cRt, []) := by
  refine ⟨by decide, ?_⟩
  exact C7_hello_capabilities NodePy.cRt GossipPy.cHelloUdp 7 (by decide)

set_option maxRecDepth 100000 in
/-- C7 counterexample: `gossip_node.py` accepts a HELLO whose payload lists
no capabilities at all — the sender is added to the peer view and a
PEERS_LIST reply is sent. -/
theorem C7_counterexample :
    ((GossipPy.step GossipPy.cNode1
        (GossipPy.Event.recv { msg_type := "HELLO", msg_id := "h1", sender_id := "s" }
          ("h", 3) 7)).2.1.map (fun sd => sd.msg.msg_type) = ["PEERS_LIST"]) ∧
    ((GossipPy.step GossipPy.cNode1
        (GossipPy.Event.recv { msg_type := "HELLO", msg_id := "h1", sender_id := "s" }
          ("h", 3) 7)).1.peers.any (fun kv => kv.1 == "s") = true) ∧
    (({ msg_type := "HELLO", msg_id := "h1", sender_id := "s" } : GossipPy.Msg).payload.capabilities
      = []) := by
  refine ⟨by decide, by decide, by decide⟩

/-- Helper: every entry `list_for_peers_list` accumulates avoids the store's
own address and the excluded addresses. -/
theorem lfplGo_sound (st : NodePy.PeerStore) (limit : Int) (excl : List String) :
    ∀ (keys : List String) (acc : List GossipPy.PeerEntryPy),
    (∀ e ∈ acc, e.addr ≠ st.self_addr ∧ excl.contains e.addr = false) →
    ∀ e ∈ NodePy.lfplGo st limit excl keys acc,
      e.addr ≠ st.self_addr ∧ excl.contains e.addr = false := by
  intro keys
  induction keys with
  | nil =>
      intro acc hacc e he
      exact hacc e he
  | cons a rest ih =>
      intro acc hacc e he
      unfold NodePy.lfplGo at he
      by_cases hskip : a = st.self_addr ∨ excl.contains a = true
      · rw [if_pos hskip] at he
        exact ih acc hacc e he
      · rw [if_neg hskip] at he
        push_neg at hskip
        have hexcl : excl.contains a = false := by
          cases hc : excl.contains a
          · rfl
          · exact absurd hc hskip.2
        cases hfind : st.peers.find? (fun r => r.addr == a) with
        | none =>
            rw [hfind] at he
            exact ih acc hacc e he
        | some r =>
            simp only [hfind] at he
            have hra : r.addr = a := by
              have := List.find?_some hfind
              simpa using this
            by_cases htr : NodePy.pyTruthy r.node_id = true
            · rw [if_pos htr] at he
              have haccn : ∀ x ∈ acc ++ [GossipPy.PeerEntryPy.mk (r.node_id.getD "") r.addr],
                  x.addr ≠ st.self_addr ∧ excl.contains x.addr = false := by
                intro x hx
                rcases List.mem_append.mp hx with hx | hx
                · exact hacc x hx
                · rw [List.mem_singleton.mp hx]
                  rw [hra]
                  exact ⟨hskip.1, hexcl⟩
              by_cases hbound : (Int.ofNat (acc ++
                  [GossipPy.PeerEntryPy.mk (r.node_id.getD "") r.addr]).length) ≥ limit
              · rw [if_pos hbound] at he
                exact haccn e he
              · rw [if_neg hbound] at he
                exact ih _ haccn e he
            · rw [if_neg htr] at he
              exact ih acc hacc e he

/-- Helper: `list_for_peers_list` never exceeds the limit (the bound is
checked after each append, so a positive limit is respected). -/
theorem lfplGo_len (st : NodePy.PeerStore) (limit : Int) (excl : List String) :
    ∀ (keys : List String) (acc : List GossipPy.PeerEntryPy),
    Int.ofNat acc.length < limit →
    Int.ofNat (NodePy.lfplGo st limit excl keys acc).length ≤ limit := by
  intro keys
  induction keys with
  | nil =>
      intro acc hacc
      unfold NodePy.lfplGo
      simp only [Int.ofNat_eq_natCast] at hacc ⊢
      omega
  | cons a rest ih =>
      intro acc hacc
      unfold NodePy.lfplGo
      by_cases hskip : a = st.self_addr ∨ excl.contains a = true
      · rw [if_pos hskip]
        exact ih acc hacc
      · rw [if_neg hskip]
        cases hfind : st.peers.find? (fun r => r.addr == a) with
        | none => exact ih acc hacc
        | some r =>
            simp only []
            by_cases htr : NodePy.pyTruthy r.node_id = true
            · rw [if_pos htr]
              by_cases hbound : (Int.ofNat (acc ++
                  [GossipPy.PeerEntryPy.mk (r.node_id.getD "") r.addr]).length) ≥ limit
              · rw [if_pos hbound]
                simp only [List.length_append, List.length_cons, List.length_nil,
                  Int.ofNat_eq_natCast] at hbound hacc ⊢
                omega
              · rw [if_neg hbound]
                apply ih
                simp only [List.length_append, List.length_cons, List.length_nil,
                  Int.ofNat_eq_natCast] at hbound hacc ⊢
                omega
            · rw [if_neg htr]
              exact ih acc hacc

/-- Helper: the message type of a `make_message` envelope is its argument. -/
theorem makeMessage_msg_type (rt : NodePy.Runtime) (ty : String) (pl : GossipPy.Payload)
    (now : Int) : (NodePy.makeMessage rt ty pl now).2.msg_type = ty := by
  unfold NodePy.makeMessage
  cases h : GossipPy.drawUuid rt.uuids with
  | mk u us => simp [h]

/-- Helper: the payload of a `make_message` envelope is its argument. -/
theorem makeMessage_payload (rt : NodePy.Runtime) (ty : String) (pl : GossipPy.Payload)
    (now : Int) : (NodePy.makeMessage rt ty pl now).2.payload = pl := by
  unfold NodePy.makeMessage
  cases h : GossipPy.drawUuid rt.uuids with
  | mk u us => simp [h]

/-- C4 amended: `NodeRuntime.handle_get_peers` replies (to the datagram's
source) with a PEERS_LIST of at most `min(max_peers, peer_limit)` entries,
excluding the node's own address and the claimed `sender_addr` of the
requester.  `GossipNode._on_get_peers` violates the claim: it places the
node's own entry first and caps only at `max_peers`, see the
counterexample. -/
theorem C4_get_peers_reply (rt : NodePy.Runtime) (m : GossipPy.Msg) (peer : String)
    (now : Int) (hlim : 1 ≤ rt.peer_limit) :
    ∀ sd ∈ (NodePy.handleGetPeers rt m peer now).2,
      sd.msg.msg_type = "PEERS_LIST" ∧
      Int.ofNat sd.msg.payload.peers.length ≤ Int.ofNat rt.peer_limit ∧
      (∀ v, m.payload.max_peers = some v → Int.ofNat sd.msg.payload.peers.length ≤ v) ∧
      (∀ en ∈ sd.msg.payload.peers,
        en.addr ≠ rt.store.self_addr ∧ en.addr ≠ m.sender_addr) := by
  intro sd hsd
  have hplim : ((NodePy.touchSender rt m "hello" false now).1).peer_limit = rt.peer_limit := rfl
  have hsaddr : ((NodePy.touchSender rt m "hello" false now).1).store.self_addr =
      rt.store.self_addr := by
    unfold NodePy.touchSender
    exact upsertSelfAddr ..
  unfold NodePy.handleGetPeers at hsd
  rcases hmp : m.payload.max_peers with _ | v
  all_goals simp only [hmp] at hsd
  case _ =>
    rcases hpp : NodePy.nrParseHostPort peer with _ | tuple
    all_goals simp only [hpp] at hsd
    case _ => simp at hsd
    case _ =>
      simp only [List.mem_singleton] at hsd
      subst hsd
      refine ⟨makeMessage_msg_type .., ?_, ?_, ?_⟩
      · have hb := lfplGo_len ((NodePy.touchSender rt m "hello" false now).1).store
          (min (Int.ofNat rt.peer_limit) (Int.ofNat rt.peer_limit))
          [((NodePy.touchSender rt m "hello" false now).1).store.self_addr, m.sender_addr]
          (PyStr.sortStrs (((NodePy.touchSender rt m "hello" false now).1).store.peers.map
            (·.addr))) []
          (by simp only [List.length_nil, Int.ofNat_eq_natCast]; push_cast; omega)
        simp only [makeMessage_payload, NodePy.listForPeersList, hplim, Option.getD_none,
          Option.getD_some, Int.ofNat_eq_natCast] at hb ⊢
        omega
      · intro v hv
        exact Option.noConfusion hv
      · intro en hen
        simp only [makeMessage_payload, NodePy.listForPeersList, hplim, Option.getD_none,
          Option.getD_some] at hen
        have hs := lfplGo_sound ((NodePy.touchSender rt m "hello" false now).1).store
          (min (Int.ofNat rt.peer_limit) (Int.ofNat rt.peer_limit))
          [((NodePy.touchSender rt m "hello" false now).1).store.self_addr, m.sender_addr]
          (PyStr.sortStrs (((NodePy.touchSender rt m "hello" false now).1).store.peers.map
            (·.addr))) []
          (by intro e he; cases he) en hen
        rw [hsaddr] at hs
        refine ⟨hs.1, ?_⟩
        have h2 := hs.2
        intro hcon
        rw [hcon] at h2
        simp at h2
  case _ =>
    by_cases hv1 : v < 1
    · simp only [if_pos hv1] at hsd
      simp at hsd
    · simp only [if_neg hv1] at hsd
      rcases hpp : NodePy.nrParseHostPort peer with _ | tuple
      all_goals simp only [hpp] at hsd
      case _ => simp at hsd
      case _ =>
        simp only [List.mem_singleton] at hsd
        subst hsd
        refine ⟨makeMessage_msg_type .., ?_, ?_, ?_⟩
        · have hb := lfplGo_len ((NodePy.touchSender rt m "hello" false now).1).store
            (min v (Int.ofNat rt.peer_limit))
            [((NodePy.touchSender rt m "hello" false now).1).store.self_addr, m.sender_addr]
            (PyStr.sortStrs (((NodePy.touchSender rt m "hello" false now).1).store.peers.map
              (·.addr))) []
            (by simp only [List.length_nil, Int.ofNat_eq_natCast]; push_cast; omega)
          simp only [makeMessage_payload, NodePy.listForPeersList, hplim, Option.getD_none,
            Option.getD_some, Int.ofNat_eq_natCast] at hb ⊢
          omega
        · intro w hw
          injection hw with hvw
          subst hvw
          have hb := lfplGo_len ((NodePy.touchSender rt m "hello" false now).1).store
            (min v (Int.ofNat rt.peer_limit))
            [((NodePy.touchSender rt m "hello" false now).1).store.self_addr, m.sender_addr]
            (PyStr.sortStrs (((NodePy.touchSender rt m "hello" false now).1).store.peers.map
              (·.addr))) []
            (by simp only [List.length_nil, Int.ofNat_eq_natCast]; push_cast; omega)
          simp only [makeMessage_payload, NodePy.listForPeersList, hplim, Option.getD_none,
            Option.getD_some, Int.ofNat_eq_natCast] at hb ⊢
          omega
        · intro en hen
          simp only [makeMessage_payload, NodePy.listForPeersList, hplim, Option.getD_none,
          Option.getD_some] at hen
          have hs := lfplGo_sound ((NodePy.touchSender rt m "hello" false now).1).store
            (min v (Int.ofNat rt.peer_limit))
            [((NodePy.touchSender rt m "hello" false now).1).store.self_addr, m.sender_addr]
            (PyStr.sortStrs (((NodePy.touchSender rt m "hello" false now).1).store.peers.map
              (·.addr))) []
            (by intro e he; cases he) en hen
          rw [hsaddr] at hs
          refine ⟨hs.1, ?_⟩
          have h2 := hs.2
          intro hcon
          rw [hcon] at h2
          simp at h2

/-- C4 witness: the characterization applied at a concrete runtime and
request. -/
theorem C4_get_peers_reply_witness :
    (1 ≤ NodePy.cRt.peer_limit) ∧
    (∀ sd ∈ (NodePy.handleGetPeers NodePy.cRt GossipPy.cGetPeers1 "h:2" 7).2,
      sd.msg.msg_type = "PEERS_LIST" ∧
      Int.ofNat sd.msg.payload.peers.length ≤ Int.ofNat NodePy.cRt.peer_limit ∧
      (∀ v, GossipPy.cGetPeers1.payload.max_peers = some v →
        Int.ofNat sd.msg.payload.peers.length ≤ v) ∧
      (∀ en ∈ sd.msg.payload.peers,
        en.addr ≠ NodePy.cRt.store.self_addr ∧
        en.addr ≠ GossipPy.cGetPeers1.sender_addr)) :=
  ⟨by decide, C4_get_peers_reply NodePy.cRt GossipPy.cGetPeers1 "h:2" 7 (by decide)⟩

set_option maxRecDepth 100000 in
/-- C4 counterexample: `gossip_node.py` answering GET_PEERS with
`max_peers = 1` while knowing one peer replies with two entries, the first
being the node's own `node_id`/address — the reply neither respects
`min(max_peers, peer_limit)` nor excludes the node itself. -/
theorem C4_counterexample :
    ((GossipPy.step GossipPy.cNode1
        (GossipPy.Event.recv GossipPy.cGetPeers1 ("h", 2) 5)).2.1.map
        (fun sd => sd.msg.payload.peers) =
      [[{ node_id := "self", addr := "127.0.0.1:9000" },
        { node_id := "p", addr := "h:1" }]]) ∧
    (GossipPy.addrToStr GossipPy.cNode1.self_addr = "127.0.0.1:9000") ∧
    (GossipPy.cGetPeers1.payload.max_peers = some 1) := by
  refine ⟨by decide, by decide, by decide⟩

/-- Helper: anything the `_compute_pow` search loop returns records the
nonce it found, with the digest taken over `node_id` first. -/
theorem computePowSearch_spec :
    ∀ (fuel nonce : Nat) (nid : String) (k : Nat) (cred : GossipPy.PowPayload),
    GossipPy.computePowSearch nid k nonce fuel = some cred →
    ∃ n : Nat, cred = { hash_alg := "sha256", difficulty_k := Int.ofNat k,
                        nonce := Int.ofNat n,
                        digest_hex := Sha256.sha256hex (nid ++ toString n) } ∧
      PyStr.strStarts (Sha256.sha256hex (nid ++ toString n)) (GossipPy.zeroTarget k) = true := by
  intro fuel
  induction fuel with
  | zero =>
      intro nonce nid k cred h
      cases h
  | succ f ih =>
      intro nonce nid k cred h
      unfold GossipPy.computePowSearch at h
      by_cases hs : PyStr.strStarts (Sha256.sha256hex (nid ++ toString nonce))
          (GossipPy.zeroTarget k) = true
      · rw [if_pos hs] at h
        injection h with h
        exact ⟨nonce, h.symm, hs⟩
      · rw [if_neg hs] at h
        exact ih (nonce + 1) nid k cred h

/-- Helper: anything `_create_pow` returns records the nonce it drew, with
the digest taken over the nonce first. -/
theorem createPow_spec :
    ∀ (fuel : Nat) (rs : List Nat) (nid : String) (k : Nat) (cred : GossipPy.PowPayload),
    NodePy.createPow nid k rs fuel = some cred →
    ∃ n : Nat, cred = { hash_alg := "sha256", difficulty_k := Int.ofNat k,
                        nonce := Int.ofNat n,
                        digest_hex := Sha256.sha256hex (toString n ++ nid) } ∧
      PyStr.strStarts (Sha256.sha256hex (toString n ++ nid)) (GossipPy.zeroTarget k) = true := by
  intro fuel
  induction fuel with
  | zero =>
      intro rs nid k cred h
      cases h
  | succ f ih =>
      intro rs nid k cred h
      unfold NodePy.createPow at h
      cases hdr : GossipPy.drawNat rs with
      | mk d rs1 =>
          simp only [hdr] at h
          by_cases hs : PyStr.strStarts (Sha256.sha256hex (toString (d % 4294967296) ++ nid))
              (GossipPy.zeroTarget k) = true
          · rw [if_pos hs] at h
            injection h with h
            exact ⟨d % 4294967296, h.symm, hs⟩
          · rw [if_neg hs] at h
            exact ih rs1 nid k cred h

/-- C6 amended: in `gossip_node.py` the PoW preimage is `node_id` first:
`_compute_pow` (for `k > 0`) returns a credential whose `digest_hex` is the
lowercase hex SHA-256 of `node_id ++ str(nonce)` with the `k`-zero target,
and `_verify_pow` recomputes that same node-id-first digest, accepting
exactly on `hash_alg`, matching difficulty, a non-negative nonce, digest
equality and the zero target (for `k = 0`, `_compute_pow` instead returns a
sentinel with an empty `digest_hex`).  In `src/node.py`, `_create_pow`
digests `str(nonce) ++ node_id` — the nonce-first preimage the claim
describes. -/
theorem C6_pow_preimage :
    (∀ (nid : String) (k fuel : Nat) (cred : GossipPy.PowPayload),
      0 < k → GossipPy.computePow nid k fuel = some cred →
      cred.hash_alg = "sha256" ∧ cred.difficulty_k = Int.ofNat k ∧ 0 ≤ cred.nonce ∧
      cred.digest_hex = Sha256.sha256hex (nid ++ toString cred.nonce) ∧
      PyStr.strStarts cred.digest_hex (GossipPy.zeroTarget k) = true ∧
      GossipPy.verifyPow nid cred k = true) ∧
    (∀ (nid : String) (k : Nat) (rs : List Nat) (fuel : Nat) (cred : GossipPy.PowPayload),
      NodePy.createPow nid k rs fuel = some cred →
      cred.hash_alg = "sha256" ∧ cred.difficulty_k = Int.ofNat k ∧ 0 ≤ cred.nonce ∧
      cred.digest_hex = Sha256.sha256hex (toString cred.nonce ++ nid) ∧
      PyStr.strStarts cred.digest_hex (GossipPy.zeroTarget k) = true) ∧
    (∀ (nid : String) (p : GossipPy.PowPayload) (k : Nat),
      GossipPy.verifyPow nid p k = true ↔
        (PyStr.strLower p.hash_alg = "sha256" ∧ p.difficulty_k = Int.ofNat k ∧
         0 ≤ p.nonce ∧ Sha256.sha256hex (nid ++ toString p.nonce) = p.digest_hex ∧
         PyStr.strStarts (Sha256.sha256hex (nid ++ toString p.nonce))
           (GossipPy.zeroTarget k) = true)) := by
  refine ⟨?_, ?_, ?_⟩
  · intro nid k fuel cred hk hcp
    unfold GossipPy.computePow at hcp
    rw [if_neg (Nat.pos_iff_ne_zero.mp hk)] at hcp
    obtain ⟨n, rfl, hstart⟩ := computePowSearch_spec fuel 0 nid k cred hcp
    refine ⟨rfl, rfl, Int.ofNat_zero_le n, rfl, hstart, ?_⟩
    unfold GossipPy.verifyPow
    rw [if_neg (show ¬ PyStr.strLower "sha256" ≠ "sha256" from fun hh => hh (by decide))]
    rw [if_neg (show ¬ (Int.ofNat k ≠ Int.ofNat k) from fun hh => hh rfl)]
    rw [if_neg (show ¬ (Int.ofNat n < 0) from by simp only [Int.ofNat_eq_natCast]; omega)]
    simp only [Bool.and_eq_true, beq_iff_eq]
    exact ⟨rfl, hstart⟩
  · intro nid k rs fuel cred hcp
    obtain ⟨n, rfl, hstart⟩ := createPow_spec fuel rs nid k cred hcp
    exact ⟨rfl, rfl, Int.ofNat_zero_le n, rfl, hstart⟩
  · intro nid p k
    unfold GossipPy.verifyPow
    by_cases h1 : PyStr.strLower p.hash_alg = "sha256"
    · rw [if_neg (fun hh => hh h1)]
      by_cases h2 : p.difficulty_k = Int.ofNat k
      · rw [if_neg (fun hh => hh h2)]
        by_cases h3 : p.nonce < 0
        · rw [if_pos h3]
          constructor
          · intro hfalse
            cases hfalse
          · rintro ⟨-, -, h0, -⟩
            omega
        · rw [if_neg h3]
          simp only [Bool.and_eq_true, beq_iff_eq]
          constructor
          · rintro ⟨he, hsw⟩
            exact ⟨h1, h2, by omega, he, hsw⟩
          · rintro ⟨-, -, -, he, hsw⟩
            exact ⟨he, hsw⟩
      · rw [if_pos h2]
        constructor
        · intro hfalse
          cases hfalse
        · rintro ⟨-, hq, -⟩
          exact absurd hq h2
    · rw [if_pos h1]
      constructor
      · intro hfalse
        cases hfalse
      · rintro ⟨hq, -⟩
        exact absurd hq h1

set_option maxRecDepth 1000000 in
/-- C6 counterexample: `_verify_pow` accepts the credential whose digest is
SHA-256 of `"d" ++ "0"` (node id first), although the SHA-256 of the claim's
preimage `"0" ++ "d"` (nonce first) differs from `digest_hex`; and for
`k = 0` `_compute_pow` returns an empty `digest_hex` that is no SHA-256 of
either preimage. -/
theorem C6_counterexample :
    (GossipPy.verifyPow "d"
      { hash_alg := "sha256", difficulty_k := 1, nonce := 0,
        digest_hex := "0ad52e338662c923b15fd45a73c6e97336efccf28a7aef9449443cc6dd7415fb" }
      1 = true) ∧
    (Sha256.sha256hex (toString (0 : Int) ++ "d") ≠
      "0ad52e338662c923b15fd45a73c6e97336efccf28a7aef9449443cc6dd7415fb") ∧
    (GossipPy.computePow "1" 0 5 = some GossipPy.powZeroCred) ∧
    (GossipPy.powZeroCred.digest_hex = "") ∧
    (Sha256.sha256hex (toString (0 : Int) ++ "1") ≠ "") ∧
    (Sha256.sha256hex ("1" ++ toString (0 : Int)) ≠ "") := by
  refine ⟨by decide, by decide, by decide, by decide, by decide, by decide⟩

set_option maxRecDepth 1000000 in
/-- C6 witness: concrete searches of both implementations, with the first
conjunct of the characterization applied to the `gossip_node.py` result. -/
theorem C6_pow_preimage_witness :
    (0 < 1) ∧
    (GossipPy.computePow "d" 1 2 = some
      { hash_alg := "sha256", difficulty_k := 1, nonce := 0,
        digest_hex := "0ad52e338662c923b15fd45a73c6e97336efccf28a7aef9449443cc6dd7415fb" }) ∧
    (GossipPy.verifyPow "d"
      { hash_alg := "sha256", difficulty_k := 1, nonce := 0,
        digest_hex := "0ad52e338662c923b15fd45a73c6e97336efccf28a7aef9449443cc6dd7415fb" }
      1 = true) ∧
    (NodePy.createPow "d" 1 [4] 1 = some
      { hash_alg := "sha256", difficulty_k := 1, nonce := 4,
        digest_hex := "04a6af622c24b0dd76fa725a79a8371d4f5a4fe34b4796a8ba9426eb1be050f5" }) ∧
    (({ hash_alg := "sha256", difficulty_k := 1, nonce := 4,
        digest_hex := "04a6af622c24b0dd76fa725a79a8371d4f5a4fe34b4796a8ba9426eb1be050f5" }
      : GossipPy.PowPayload).digest_hex =
        Sha256.sha256hex (toString
          (({ hash_alg := "sha256", difficulty_k := 1, nonce := 4,
              digest_hex := "04a6af622c24b0dd76fa725a79a8371d4f5a4fe34b4796a8ba9426eb1be050f5" }
            : GossipPy.PowPayload).nonce) ++ "d")) := by
  refine ⟨by decide, by decide, ?_, by decide, ?_⟩
  · exact (C6_pow_preimage.1 "d" 1 2
      { hash_alg := "sha256", difficulty_k := 1, nonce := 0,
        digest_hex := "0ad52e338662c923b15fd45a73c6e97336efccf28a7aef9449443cc6dd7415fb" }
      (by decide) (by decide)).2.2.2.2.2
  · exact (C6_pow_preimage.2.1 "d" 1 [4] 1
      { hash_alg := "sha256", difficulty_k := 1, nonce := 4,
        digest_hex := "04a6af622c24b0dd76fa725a79a8371d4f5a4fe34b4796a8ba9426eb1be050f5" }
      (by decide)).2.2.2.1

/-- Helper: the stream-driven shuffle permutes its input when the fuel
covers the length. -/
theorem shuffleAux_perm :
    ∀ (fuel : Nat) (r : List Nat) (xs : List α), xs.length ≤ fuel →
    ((GossipPy.shuffleAux fuel r xs).1).Perm xs := by
  intro fuel
  induction fuel with
  | zero =>
      intro r xs h
      have : xs = [] := List.eq_nil_of_length_eq_zero (Nat.le_zero.mp h)
      subst this
      simp [GossipPy.shuffleAux]
  | succ n ih =>
      intro r xs h
      match xs with
      | [] => simp [GossipPy.shuffleAux]
      | x :: t =>
          have hrotp : ((x :: t).rotate ((GossipPy.drawNat r).1 % (x :: t).length)).Perm
              (x :: t) := List.rotate_perm _ _
          have hlenrot : ((x :: t).rotate ((GossipPy.drawNat r).1 % (x :: t).length)).length =
              t.length + 1 := by
            rw [List.length_rotate]
            rfl
          rcases hrot : (x :: t).rotate ((GossipPy.drawNat r).1 % (x :: t).length) with _ | ⟨y, ys⟩
          · rw [hrot] at hlenrot
            cases hlenrot
          · have hys : ys.length ≤ n := by
              rw [hrot] at hlenrot
              simp only [List.length_cons] at hlenrot h
              omega
            have hperm := ih (GossipPy.drawNat r).2 ys hys
            have hstep : (GossipPy.shuffleAux (n + 1) r (x :: t)).1 =
                ((x :: t).rotate ((GossipPy.drawNat r).1 % (x :: t).length)).headD x ::
                  (GossipPy.shuffleAux n (GossipPy.drawNat r).2
                    ((x :: t).rotate ((GossipPy.drawNat r).1 % (x :: t).length)).tail).1 := rfl
            rw [hrot] at hstep
            simp only [List.headD_cons, List.tail_cons] at hstep
            rw [hstep]
            rw [hrot] at hrotp
            exact ((hperm.cons y).trans hrotp)

/-- Helper: `shuffleList` permutes its input. -/
theorem shuffleList_perm (r : List Nat) (xs : List α) :
    ((GossipPy.shuffleList r xs).1).Perm xs :=
  shuffleAux_perm xs.length r xs le_rfl

/-- Helper: every datagram `_broadcast` emits carries the given envelope
unchanged and goes to a table entry other than the excluded one. -/
theorem broadcast_sends (s : GossipPy.NodeState) (msg : GossipPy.Msg)
    (ex : Option String) :
    ∀ sd ∈ (GossipPy.broadcast s msg ex).2,
      sd.msg = msg ∧ ∃ kv ∈ s.peers, (∀ e, ex = some e → kv.1 ≠ e) ∧ sd.dest = kv.2.addr := by
  intro sd hsd
  unfold GossipPy.broadcast at hsd
  rcases ex with _ | e
  · simp only [] at hsd
    by_cases hemp : s.peers.isEmpty = true
    · rw [if_pos hemp] at hsd
      cases hsd
    · rw [if_neg hemp] at hsd
      obtain ⟨kv, hkv, rfl⟩ := List.mem_map.mp hsd
      have hkvm : kv ∈ (GossipPy.shuffleList s.rng s.peers).1 :=
        List.take_subset _ _ hkv
      have : kv ∈ s.peers := (shuffleList_perm s.rng s.peers).subset hkvm
      exact ⟨rfl, kv, this, fun e he => Option.noConfusion he, rfl⟩
  · simp only [] at hsd
    by_cases hemp : (s.peers.filter (fun kv => kv.1 ≠ e)).isEmpty = true
    · rw [if_pos hemp] at hsd
      cases hsd
    · rw [if_neg hemp] at hsd
      obtain ⟨kv, hkv, rfl⟩ := List.mem_map.mp hsd
      have hkvm : kv ∈ (GossipPy.shuffleList s.rng (s.peers.filter (fun kv => kv.1 ≠ e))).1 :=
        List.take_subset _ _ hkv
      have hfil : kv ∈ s.peers.filter (fun kv => kv.1 ≠ e) :=
        (shuffleList_perm s.rng _).subset hkvm
      refine ⟨rfl, kv, List.mem_of_mem_filter hfil, ?_, rfl⟩
      intro e' he'
      injection he' with he'
      subst he'
      have := List.of_mem_filter hfil
      simpa using this


/-- Helper: the second component of a uuid4 draw is the stream's tail. -/
theorem drawUuid_snd (l : List String) : (GossipPy.drawUuid l).2 = l.drop 1 := by
  cases l <;> rfl

/-- Helper: `_update_peer` changes only the peer table. -/
theorem updatePeer_proj (s : GossipPy.NodeState) (nid : String) (a : GossipPy.Addr)
    (now : Int) :
    (GossipPy.updatePeer s nid a now).cfg = s.cfg ∧
    (GossipPy.updatePeer s nid a now).node_id = s.node_id ∧
    (GossipPy.updatePeer s nid a now).self_addr = s.self_addr ∧
    (GossipPy.updatePeer s nid a now).seen_msgs = s.seen_msgs ∧
    (GossipPy.updatePeer s nid a now).gossip_cache = s.gossip_cache ∧
    (GossipPy.updatePeer s nid a now).hello_pow = s.hello_pow ∧
    (GossipPy.updatePeer s nid a now).rng = s.rng ∧
    (GossipPy.updatePeer s nid a now).uuids = s.uuids := by
  unfold GossipPy.updatePeer
  cases GossipPy.dictGet s.peers nid <;>
    exact ⟨rfl, rfl, rfl, rfl, rfl, rfl, rfl, rfl⟩

/-- Helper: the pre-dispatch sender refresh changes only the peer table. -/
theorem preUpdate_proj (s : GossipPy.NodeState) (m : GossipPy.Msg) (a : GossipPy.Addr)
    (now : Int) :
    (GossipPy.preUpdate s m a now).cfg = s.cfg ∧
    (GossipPy.preUpdate s m a now).node_id = s.node_id ∧
    (GossipPy.preUpdate s m a now).self_addr = s.self_addr ∧
    (GossipPy.preUpdate s m a now).seen_msgs = s.seen_msgs ∧
    (GossipPy.preUpdate s m a now).gossip_cache = s.gossip_cache ∧
    (GossipPy.preUpdate s m a now).hello_pow = s.hello_pow ∧
    (GossipPy.preUpdate s m a now).rng = s.rng ∧
    (GossipPy.preUpdate s m a now).uuids = s.uuids := by
  unfold GossipPy.preUpdate
  split
  · exact updatePeer_proj s m.sender_id a now
  · exact ⟨rfl, rfl, rfl, rfl, rfl, rfl, rfl, rfl⟩

/-- Helper: `_broadcast` touches only the PRNG stream. -/
theorem broadcast_proj (s : GossipPy.NodeState) (msg : GossipPy.Msg) (ex : Option String) :
    (GossipPy.broadcast s msg ex).1.cfg = s.cfg ∧
    (GossipPy.broadcast s msg ex).1.seen_msgs = s.seen_msgs ∧
    (GossipPy.broadcast s msg ex).1.uuids = s.uuids ∧
    (GossipPy.broadcast s msg ex).1.peers = s.peers ∧
    (GossipPy.broadcast s msg ex).1.gossip_cache = s.gossip_cache := by
  unfold GossipPy.broadcast
  cases ex <;> simp only [] <;> split <;> exact ⟨rfl, rfl, rfl, rfl, rfl⟩

/-- Helper: `_make_hello` consumes one uuid4 draw and leaves the
configuration and the seen set alone. -/
theorem makeHello_frame (s : GossipPy.NodeState) (now : Int) :
    (GossipPy.makeHello s now).1.cfg = s.cfg ∧
    (GossipPy.makeHello s now).1.seen_msgs = s.seen_msgs ∧
    (GossipPy.makeHello s now).1.uuids = s.uuids.drop 1 := by
  simp only [GossipPy.makeHello]
  split
  · split
    · exact ⟨rfl, rfl, drawUuid_snd s.uuids⟩
    · split
      · exact ⟨rfl, rfl, drawUuid_snd s.uuids⟩
      · exact ⟨rfl, rfl, drawUuid_snd s.uuids⟩
  · exact ⟨rfl, rfl, drawUuid_snd s.uuids⟩

/-- Helper: `_on_hello` draws at most one uuid and leaves the seen set alone. -/
theorem onHello_frame (s : GossipPy.NodeState) (m : GossipPy.Msg) (a : GossipPy.Addr)
    (now : Int) :
    (GossipPy.onHello s m a now).1.cfg = s.cfg ∧
    (GossipPy.onHello s m a now).1.seen_msgs = s.seen_msgs ∧
    ∃ k ≤ 1, (GossipPy.onHello s m a now).1.uuids = s.uuids.drop k := by
  have hacc : (GossipPy.helloAccept s m a now).1.cfg = s.cfg ∧
      (GossipPy.helloAccept s m a now).1.seen_msgs = s.seen_msgs ∧
      (GossipPy.helloAccept s m a now).1.uuids = s.uuids.drop 1 := by
    unfold GossipPy.helloAccept GossipPy.makePeersList
    have hup := updatePeer_proj s m.sender_id a now
    refine ⟨hup.1, hup.2.2.2.1, ?_⟩
    have := hup.2.2.2.2.2.2.2
    calc (GossipPy.baseMsg (GossipPy.updatePeer s m.sender_id a now) "PEERS_LIST"
            now none).1.uuids
        = (GossipPy.drawUuid (GossipPy.updatePeer s m.sender_id a now).uuids).2 := rfl
      _ = (GossipPy.updatePeer s m.sender_id a now).uuids.drop 1 := drawUuid_snd _
      _ = s.uuids.drop 1 := by rw [this]
  unfold GossipPy.onHello
  split
  · split
    · exact ⟨rfl, rfl, 0, Nat.zero_le _, rfl⟩
    · split
      · exact ⟨hacc.1, hacc.2.1, 1, le_rfl, hacc.2.2⟩
      · exact ⟨rfl, rfl, 0, Nat.zero_le _, rfl⟩
  · exact ⟨hacc.1, hacc.2.1, 1, le_rfl, hacc.2.2⟩

/-- Helper: the `_on_peers_list` loop draws at most one uuid per listed entry
and leaves the configuration and the seen set alone. -/
theorem onPeersListGo_frame (entries : List GossipPy.PeerEntryPy) :
    ∀ (s : GossipPy.NodeState) (now : Int),
    (GossipPy.onPeersListGo s entries now).1.cfg = s.cfg ∧
    (GossipPy.onPeersListGo s entries now).1.seen_msgs = s.seen_msgs ∧
    ∃ k ≤ entries.length, (GossipPy.onPeersListGo s entries now).1.uuids = s.uuids.drop k := by
  induction entries with
  | nil =>
      intro s now
      exact ⟨rfl, rfl, 0, Nat.zero_le _, rfl⟩
  | cons e rest ih =>
      intro s now
      simp only [GossipPy.onPeersListGo]
      cases hp : GossipPy.parseHostPort e.addr with
      | none =>
          obtain ⟨h1, h2, k, hk, hu⟩ := ih s now
          exact ⟨h1, h2, k, Nat.le_succ_of_le hk, hu⟩
      | some a =>
          simp only []
          by_cases hid : e.node_id = s.node_id
          · rw [if_pos hid]
            obtain ⟨h1, h2, k, hk, hu⟩ := ih s now
            exact ⟨h1, h2, k, Nat.le_succ_of_le hk, hu⟩
          · rw [if_neg hid]
            by_cases hkn : GossipPy.dictContains s.peers e.node_id = true
            · rw [if_pos hkn]
              obtain ⟨h1, h2, k, hk, hu⟩ := ih (GossipPy.updatePeer s e.node_id a now) now
              have hp8 := updatePeer_proj s e.node_id a now
              refine ⟨h1.trans hp8.1, h2.trans hp8.2.2.2.1, k, Nat.le_succ_of_le hk, ?_⟩
              rw [hu, hp8.2.2.2.2.2.2.2]
            · rw [if_neg hkn]
              obtain ⟨h1, h2, k, hk, hu⟩ :=
                ih (GossipPy.makeHello (GossipPy.updatePeer s e.node_id a now) now).1 now
              have hp8 := updatePeer_proj s e.node_id a now
              have hmh := makeHello_frame (GossipPy.updatePeer s e.node_id a now) now
              refine ⟨h1.trans (hmh.1.trans hp8.1),
                h2.trans (hmh.2.1.trans hp8.2.2.2.1), k + 1,
                by simp only [List.length_cons]; omega, ?_⟩
              rw [hu, hmh.2.2, hp8.2.2.2.2.2.2.2, List.drop_drop, Nat.add_comm 1 k]

/-- Helper: `_on_pong` leaves everything but the peer table alone. -/
theorem onPong_frame (s : GossipPy.NodeState) (m : GossipPy.Msg) :
    (GossipPy.onPong s m).1.cfg = s.cfg ∧
    (GossipPy.onPong s m).1.seen_msgs = s.seen_msgs ∧
    (GossipPy.onPong s m).1.uuids = s.uuids := by
  unfold GossipPy.onPong
  cases GossipPy.dictGet s.peers m.sender_id <;> exact ⟨rfl, rfl, rfl⟩

/-- Helper: `_on_ihave` draws at most one uuid and leaves the seen set alone. -/
theorem onIhave_frame (s : GossipPy.NodeState) (m : GossipPy.Msg) (sid : String)
    (now : Int) :
    (GossipPy.onIhave s m sid now).1.cfg = s.cfg ∧
    (GossipPy.onIhave s m sid now).1.seen_msgs = s.seen_msgs ∧
    ∃ k ≤ 1, (GossipPy.onIhave s m sid now).1.uuids = s.uuids.drop k := by
  simp only [GossipPy.onIhave]
  split
  · exact ⟨rfl, rfl, 0, Nat.zero_le _, rfl⟩
  · split <;> exact ⟨rfl, rfl, 1, le_rfl, drawUuid_snd s.uuids⟩

/-- Helper: handling a duplicate or empty-id GOSSIP returns the state
untouched with no datagram and no push. -/
theorem onGossip_dup (s : GossipPy.NodeState) (m : GossipPy.Msg) (ttl : Int)
    (sid : String) (now : Int) (h : m.msg_id = "" ∨ m.msg_id ∈ s.seen_msgs) :
    GossipPy.onGossip s m ttl sid now = (s, [], []) := by
  unfold GossipPy.onGossip
  rcases h with h | h
  · rw [if_pos h]
  · by_cases hid : m.msg_id = ""
    · rw [if_pos hid]
    · rw [if_neg hid, if_pos h]

/-- Helper: handling a fresh GOSSIP records the id and the envelope and then
either stops (ttl ≤ 0) or pushes one decremented copy to `_broadcast`. -/
theorem onGossip_fresh (s : GossipPy.NodeState) (m : GossipPy.Msg) (ttl : Int)
    (sid : String) (now : Int) (hid : m.msg_id ≠ "") (hfresh : m.msg_id ∉ s.seen_msgs) :
    GossipPy.onGossip s m ttl sid now =
      (let s2 : GossipPy.NodeState :=
        { s with seen_msgs := s.seen_msgs ++ [m.msg_id],
                 gossip_cache :=
                   if (GossipPy.dictSet s.gossip_cache m.msg_id m).length > 1024
                   then (GossipPy.dictSet s.gossip_cache m.msg_id m).tail
                   else GossipPy.dictSet s.gossip_cache m.msg_id m }
       if ttl ≤ 0 then (s2, [], [])
       else ((GossipPy.broadcast s2 { m with ttl := ttl - 1 } (some sid)).1,
             (GossipPy.broadcast s2 { m with ttl := ttl - 1 } (some sid)).2,
             [{ m with ttl := ttl - 1 }])) := by
  unfold GossipPy.onGossip
  rw [if_neg hid, if_neg hfresh]

/-- Helper: on a well-formed GOSSIP datagram `handle_datagram` refreshes the
sender and runs `_on_gossip`. -/
theorem handleDatagram_gossip (s : GossipPy.NodeState) (m : GossipPy.Msg)
    (src : GossipPy.Addr) (now : Int) (hty : m.msg_type = "GOSSIP")
    (hsid : m.sender_id ≠ "") :
    GossipPy.handleDatagram s m src now =
      GossipPy.onGossip (GossipPy.preUpdate s m src now) m m.ttl m.sender_id now := by
  unfold GossipPy.handleDatagram
  rw [if_neg (by
    rintro (h | h)
    · rw [hty] at h
      exact (by decide : ("GOSSIP" : String) ≠ "") h
    · exact hsid h)]
  unfold GossipPy.dispatch
  rw [hty, if_neg (by decide), if_neg (by decide), if_neg (by decide), if_neg (by decide),
    if_neg (by decide), if_pos rfl]


/-- Helper: `_on_get_peers` draws exactly one uuid and leaves the
configuration and the seen set alone. -/
theorem onGetPeers_frame (s : GossipPy.NodeState) (m : GossipPy.Msg) (a : GossipPy.Addr)
    (now : Int) :
    (GossipPy.onGetPeers s m a now).1.cfg = s.cfg ∧
    (GossipPy.onGetPeers s m a now).1.seen_msgs = s.seen_msgs ∧
    (GossipPy.onGetPeers s m a now).1.uuids = s.uuids.drop 1 :=
  ⟨rfl, rfl, drawUuid_snd s.uuids⟩

/-- Helper: `_on_ping` draws exactly one uuid and leaves the configuration and
the seen set alone. -/
theorem onPing_frame (s : GossipPy.NodeState) (m : GossipPy.Msg) (a : GossipPy.Addr)
    (now : Int) :
    (GossipPy.onPing s m a now).1.cfg = s.cfg ∧
    (GossipPy.onPing s m a now).1.seen_msgs = s.seen_msgs ∧
    (GossipPy.onPing s m a now).1.uuids = s.uuids.drop 1 :=
  ⟨rfl, rfl, drawUuid_snd s.uuids⟩

/-- Helper: `seen_msgs.add` only appends, and appends at most the added id. -/
theorem seenAdd_ext (l : List String) (x : String) :
    ∃ ext, GossipPy.seenAdd l x = l ++ ext ∧ ∀ y ∈ ext, y = x := by
  unfold GossipPy.seenAdd
  split
  · exact ⟨[], by simp, by simp⟩
  · exact ⟨[x], rfl, by simp⟩

/-- Helper: the added id is in the result of `seen_msgs.add`. -/
theorem mem_seenAdd (l : List String) (x : String) : x ∈ GossipPy.seenAdd l x := by
  unfold GossipPy.seenAdd
  split
  · assumption
  · simp

/-- Helper: one stdin origination draws one uuid, adds it to the seen set, and
pushes exactly the originated envelope. -/
theorem originate_spec (s : GossipPy.NodeState) (text : String) (now : Int) :
    (text = "" → GossipPy.originate s text now = (s, [], [])) ∧
    (text ≠ "" →
      (GossipPy.originate s text now).1.cfg = s.cfg ∧
      (GossipPy.originate s text now).1.uuids = s.uuids.drop 1 ∧
      (GossipPy.originate s text now).1.seen_msgs =
        GossipPy.seenAdd s.seen_msgs (GossipPy.drawUuid s.uuids).1 ∧
      (GossipPy.originate s text now).2.2 =
        [(GossipPy.makeGossip s "user" text none now).2]) := by
  constructor
  · intro ht
    unfold GossipPy.originate
    rw [if_pos ht]
  · intro ht
    unfold GossipPy.originate
    rw [if_neg ht]
    have hb := broadcast_proj
      { (GossipPy.makeGossip s "user" text none now).1 with
        seen_msgs := GossipPy.seenAdd
          ((GossipPy.makeGossip s "user" text none now).1).seen_msgs
          ((GossipPy.makeGossip s "user" text none now).2).msg_id }
      (GossipPy.makeGossip s "user" text none now).2 none
    exact ⟨hb.1, by rw [hb.2.2.1]; exact drawUuid_snd s.uuids, hb.2.1, rfl⟩

/-- Helper: one ping-loop pass draws two uuids and leaves the configuration
and the seen set alone. -/
theorem pingTick_frame (s : GossipPy.NodeState) (now : Int) :
    (GossipPy.pingTick s now).1.cfg = s.cfg ∧
    (GossipPy.pingTick s now).1.seen_msgs = s.seen_msgs ∧
    ∃ k ≤ 2, (GossipPy.pingTick s now).1.uuids = s.uuids.drop k := by
  simp only [GossipPy.pingTick]
  split
  · exact ⟨rfl, rfl, 0, Nat.zero_le _, rfl⟩
  · refine ⟨rfl, rfl, 2, le_rfl, ?_⟩
    show (GossipPy.drawUuid (GossipPy.drawUuid s.uuids).2).2 = s.uuids.drop 2
    rw [drawUuid_snd, drawUuid_snd, List.drop_drop]

/-- Helper: one pull-loop pass draws at most one uuid and leaves the
configuration and the seen set alone. -/
theorem pullTick_frame (s : GossipPy.NodeState) (now : Int) :
    (GossipPy.pullTick s now).1.cfg = s.cfg ∧
    (GossipPy.pullTick s now).1.seen_msgs = s.seen_msgs ∧
    ∃ k ≤ 1, (GossipPy.pullTick s now).1.uuids = s.uuids.drop k := by
  simp only [GossipPy.pullTick]
  split
  · exact ⟨rfl, rfl, 0, Nat.zero_le _, rfl⟩
  · split
    · exact ⟨rfl, rfl, 0, Nat.zero_le _, rfl⟩
    · exact ⟨rfl, rfl, 1, le_rfl, drawUuid_snd s.uuids⟩

/-- Helper: the discovery send loop draws one uuid per chosen peer. -/
theorem discGo_frame (chosen : List (String × GossipPy.PeerInfo)) :
    ∀ (s : GossipPy.NodeState) (now : Int),
    (GossipPy.discGo s chosen now).1.cfg = s.cfg ∧
    (GossipPy.discGo s chosen now).1.seen_msgs = s.seen_msgs ∧
    (GossipPy.discGo s chosen now).1.uuids = s.uuids.drop chosen.length := by
  induction chosen with
  | nil =>
      intro s now
      exact ⟨rfl, rfl, rfl⟩
  | cons kv rest ih =>
      intro s now
      simp only [GossipPy.discGo, List.length_cons]
      obtain ⟨h1, h2, hu⟩ :=
        ih (GossipPy.makeGetPeers s (Int.ofNat s.cfg.peer_limit) now).1 now
      refine ⟨h1, h2, ?_⟩
      rw [hu]
      show ((GossipPy.drawUuid s.uuids).2).drop rest.length = s.uuids.drop (rest.length + 1)
      rw [drawUuid_snd, List.drop_drop, Nat.add_comm 1 rest.length]

/-- Helper: one discovery pass draws at most `fanout` uuids and leaves the
configuration and the seen set alone. -/
theorem discoveryTick_frame (s : GossipPy.NodeState) (now : Int) :
    (GossipPy.discoveryTick s now).1.cfg = s.cfg ∧
    (GossipPy.discoveryTick s now).1.seen_msgs = s.seen_msgs ∧
    ∃ k ≤ s.cfg.fanout, (GossipPy.discoveryTick s now).1.uuids = s.uuids.drop k := by
  simp only [GossipPy.discoveryTick]
  split
  · exact ⟨rfl, rfl, 0, Nat.zero_le _, rfl⟩
  · split
    · exact ⟨rfl, rfl, 0, Nat.zero_le _, rfl⟩
    · obtain ⟨h1, h2, hu⟩ := discGo_frame
        ((GossipPy.shuffleList s.rng s.peers).1.take
          (min s.cfg.fanout (GossipPy.shuffleList s.rng s.peers).1.length))
        { s with rng := (GossipPy.shuffleList s.rng s.peers).2 } now
      refine ⟨h1, h2,
        ((GossipPy.shuffleList s.rng s.peers).1.take
          (min s.cfg.fanout (GossipPy.shuffleList s.rng s.peers).1.length)).length,
        ?_, hu⟩
      calc ((GossipPy.shuffleList s.rng s.peers).1.take
              (min s.cfg.fanout (GossipPy.shuffleList s.rng s.peers).1.length)).length
          ≤ min s.cfg.fanout (GossipPy.shuffleList s.rng s.peers).1.length :=
            List.length_take_le _ _
        _ ≤ s.cfg.fanout := min_le_left _ _

/-- Helper: `_on_iwant` leaves the node state untouched. -/
theorem onIwant_frame (s : GossipPy.NodeState) (m : GossipPy.Msg) (sid : String) :
    (GossipPy.onIwant s m sid).1.cfg = s.cfg ∧
    (GossipPy.onIwant s m sid).1.seen_msgs = s.seen_msgs ∧
    (GossipPy.onIwant s m sid).1.uuids = s.uuids := by
  unfold GossipPy.onIwant
  cases GossipPy.dictGet s.peers sid <;> exact ⟨rfl, rfl, rfl⟩

/-- Helper: the dispatch chain draws at most one uuid plus one per listed
peer entry, and only a fresh GOSSIP extends the seen set (by its own id). -/
theorem dispatch_frame (s : GossipPy.NodeState) (m : GossipPy.Msg) (a : GossipPy.Addr)
    (now : Int) :
    (GossipPy.dispatch s m a now).1.cfg = s.cfg ∧
    (∃ k ≤ 1 + m.payload.peers.length, (GossipPy.dispatch s m a now).1.uuids =
      s.uuids.drop k) ∧
    ∃ ext, (GossipPy.dispatch s m a now).1.seen_msgs = s.seen_msgs ++ ext ∧
      ∀ x ∈ ext, x = m.msg_id ∧ m.msg_id ∉ s.seen_msgs := by
  unfold GossipPy.dispatch
  by_cases h1 : m.msg_type = "HELLO"
  · rw [if_pos h1]
    obtain ⟨hc, hs, k, hk, hu⟩ := onHello_frame s m a now
    exact ⟨hc, ⟨k, by omega, hu⟩, [], by simp [GossipPy.noPush, GossipPy.onPeersList, hs], by simp⟩
  · rw [if_neg h1]
    by_cases h2 : m.msg_type = "GET_PEERS"
    · rw [if_pos h2]
      obtain ⟨hc, hs, hu⟩ := onGetPeers_frame s m a now
      exact ⟨hc, ⟨1, by omega, hu⟩, [], by simp [GossipPy.noPush, GossipPy.onPeersList, hs], by simp⟩
    · rw [if_neg h2]
      by_cases h3 : m.msg_type = "PEERS_LIST"
      · rw [if_pos h3]
        obtain ⟨hc, hs, k, hk, hu⟩ := onPeersListGo_frame m.payload.peers s now
        exact ⟨hc, ⟨k, by omega, hu⟩, [], by simp [GossipPy.noPush, GossipPy.onPeersList, hs], by simp⟩
      · rw [if_neg h3]
        by_cases h4 : m.msg_type = "PING"
        · rw [if_pos h4]
          obtain ⟨hc, hs, hu⟩ := onPing_frame s m a now
          exact ⟨hc, ⟨1, by omega, hu⟩, [], by simp [GossipPy.noPush, GossipPy.onPeersList, hs], by simp⟩
        · rw [if_neg h4]
          by_cases h5 : m.msg_type = "PONG"
          · rw [if_pos h5]
            obtain ⟨hc, hs, hu⟩ := onPong_frame s m
            exact ⟨hc, ⟨0, by omega, hu⟩, [], by simp [GossipPy.noPush, GossipPy.onPeersList, hs], by simp⟩
          · rw [if_neg h5]
            by_cases h6 : m.msg_type = "GOSSIP"
            · rw [if_pos h6]
              by_cases hdup : m.msg_id = "" ∨ m.msg_id ∈ s.seen_msgs
              · rw [onGossip_dup s m m.ttl m.sender_id now hdup]
                exact ⟨rfl, ⟨0, by omega, rfl⟩, [], by simp, by simp⟩
              · push_neg at hdup
                rw [onGossip_fresh s m m.ttl m.sender_id now hdup.1 hdup.2]
                by_cases httl : m.ttl ≤ 0
                · rw [if_pos httl]
                  exact ⟨rfl, ⟨0, by omega, rfl⟩, [m.msg_id], rfl,
                    by simp [hdup.2]⟩
                · rw [if_neg httl]
                  have hb := broadcast_proj
                    { s with seen_msgs := s.seen_msgs ++ [m.msg_id],
                             gossip_cache :=
                               if (GossipPy.dictSet s.gossip_cache m.msg_id m).length > 1024
                               then (GossipPy.dictSet s.gossip_cache m.msg_id m).tail
                               else GossipPy.dictSet s.gossip_cache m.msg_id m }
                    { m with ttl := m.ttl - 1 } (some m.sender_id)
                  exact ⟨hb.1, ⟨0, by omega, hb.2.2.1⟩, [m.msg_id], hb.2.1,
                    by simp [hdup.2]⟩
            · rw [if_neg h6]
              by_cases h7 : m.msg_type = "IHAVE"
              · rw [if_pos h7]
                obtain ⟨hc, hs, k, hk, hu⟩ := onIhave_frame s m m.sender_id now
                exact ⟨hc, ⟨k, by omega, hu⟩, [], by simp [GossipPy.noPush, GossipPy.onPeersList, hs], by simp⟩
              · rw [if_neg h7]
                by_cases h8 : m.msg_type = "IWANT"
                · rw [if_pos h8]
                  obtain ⟨hc, hs, hu⟩ := onIwant_frame s m m.sender_id
                  exact ⟨hc, ⟨0, by omega, hu⟩, [],
                    by simp [GossipPy.noPush, hs], by simp⟩
                · rw [if_neg h8]
                  exact ⟨rfl, ⟨0, by omega, rfl⟩, [], by simp, by simp⟩

/-- Helper: `handle_datagram` draws at most one uuid plus one per listed peer
entry, and only a fresh GOSSIP extends the seen set (by its own id). -/
theorem handleDatagram_frame (s : GossipPy.NodeState) (m : GossipPy.Msg)
    (src : GossipPy.Addr) (now : Int) :
    (GossipPy.handleDatagram s m src now).1.cfg = s.cfg ∧
    (∃ k ≤ 1 + m.payload.peers.length,
      (GossipPy.handleDatagram s m src now).1.uuids = s.uuids.drop k) ∧
    ∃ ext, (GossipPy.handleDatagram s m src now).1.seen_msgs = s.seen_msgs ++ ext ∧
      ∀ x ∈ ext, x = m.msg_id ∧ m.msg_id ∉ s.seen_msgs := by
  unfold GossipPy.handleDatagram
  split
  · exact ⟨rfl, ⟨0, by omega, rfl⟩, [], by simp, by simp⟩
  · have hp8 := preUpdate_proj s m src now
    obtain ⟨hc, ⟨k, hk, hu⟩, ext, hs, hext⟩ :=
      dispatch_frame (GossipPy.preUpdate s m src now) m src now
    refine ⟨hc.trans hp8.1, ⟨k, hk, by rw [hu, hp8.2.2.2.2.2.2.2]⟩, ext,
      by rw [hs, hp8.2.2.2.1], ?_⟩
    intro x hx
    obtain ⟨hx1, hx2⟩ := hext x hx
    rw [hp8.2.2.2.1] at hx2
    exact ⟨hx1, hx2⟩


/-- Helper: the head of a nonempty uuid stream is drawn first. -/
theorem drawUuid_fst_mem (l : List String) (h : l ≠ []) : (GossipPy.drawUuid l).1 ∈ l := by
  cases l with
  | nil => exact absurd rfl h
  | cons a t => exact List.mem_cons_self a t

/-- Helper: with no repeats, the drawn uuid is not in the remaining stream. -/
theorem drawUuid_fst_not_mem_drop (l : List String) (hnd : l.Nodup) :
    (GossipPy.drawUuid l).1 ∉ l.drop 1 := by
  cases l with
  | nil => simp [GossipPy.drawUuid]
  | cons a t =>
      simp only [GossipPy.drawUuid, List.drop_succ_cons, List.drop_zero]
      exact (List.nodup_cons.mp hnd).1

/-- Helper: a list of length at most one has no repeats. -/
theorem nodup_of_length_le_one {α : Type} {l : List α} (h : l.length ≤ 1) : l.Nodup := by
  rcases l with _ | ⟨a, _ | ⟨b, t⟩⟩
  · exact List.nodup_nil
  · exact List.nodup_singleton a
  · simp [List.length_cons] at h

/-- Helper: `handle_datagram` pushes at most one envelope, only for a fresh
GOSSIP id, and records the pushed id as seen. -/
theorem handleDatagram_pushes (s : GossipPy.NodeState) (m : GossipPy.Msg)
    (src : GossipPy.Addr) (now : Int) :
    (GossipPy.handleDatagram s m src now).2.2.length ≤ 1 ∧
    ∀ p ∈ (GossipPy.handleDatagram s m src now).2.2,
      p.msg_id = m.msg_id ∧ m.msg_id ∉ s.seen_msgs ∧
      p.msg_id ∈ (GossipPy.handleDatagram s m src now).1.seen_msgs := by
  unfold GossipPy.handleDatagram
  split
  · exact ⟨by simp, by simp⟩
  · have hsm : (GossipPy.preUpdate s m src now).seen_msgs = s.seen_msgs :=
      (preUpdate_proj s m src now).2.2.2.1
    unfold GossipPy.dispatch
    by_cases h1 : m.msg_type = "HELLO"
    · rw [if_pos h1]
      exact ⟨by simp [GossipPy.noPush], by simp [GossipPy.noPush]⟩
    · rw [if_neg h1]
      by_cases h2 : m.msg_type = "GET_PEERS"
      · rw [if_pos h2]
        exact ⟨by simp [GossipPy.noPush], by simp [GossipPy.noPush]⟩
      · rw [if_neg h2]
        by_cases h3 : m.msg_type = "PEERS_LIST"
        · rw [if_pos h3]
          exact ⟨by simp [GossipPy.noPush], by simp [GossipPy.noPush]⟩
        · rw [if_neg h3]
          by_cases h4 : m.msg_type = "PING"
          · rw [if_pos h4]
            exact ⟨by simp [GossipPy.noPush], by simp [GossipPy.noPush]⟩
          · rw [if_neg h4]
            by_cases h5 : m.msg_type = "PONG"
            · rw [if_pos h5]
              exact ⟨by simp [GossipPy.noPush], by simp [GossipPy.noPush]⟩
            · rw [if_neg h5]
              by_cases h6 : m.msg_type = "GOSSIP"
              · rw [if_pos h6]
                by_cases hdup : m.msg_id = "" ∨
                    m.msg_id ∈ (GossipPy.preUpdate s m src now).seen_msgs
                · rw [onGossip_dup _ m m.ttl m.sender_id now hdup]
                  exact ⟨by simp, by simp⟩
                · push_neg at hdup
                  rw [onGossip_fresh _ m m.ttl m.sender_id now hdup.1 hdup.2]
                  by_cases httl : m.ttl ≤ 0
                  · rw [if_pos httl]
                    exact ⟨by simp, by simp⟩
                  · rw [if_neg httl]
                    refine ⟨by simp, ?_⟩
                    intro p hp
                    have hpe : p = { m with ttl := m.ttl - 1 } :=
                      List.mem_singleton.mp hp
                    refine ⟨by rw [hpe], by rw [← hsm]; exact hdup.2, ?_⟩
                    have hb := (broadcast_proj
                      { GossipPy.preUpdate s m src now with
                        seen_msgs := (GossipPy.preUpdate s m src now).seen_msgs ++
                          [m.msg_id],
                        gossip_cache :=
                          if (GossipPy.dictSet
                                (GossipPy.preUpdate s m src now).gossip_cache
                                m.msg_id m).length > 1024
                          then (GossipPy.dictSet
                                (GossipPy.preUpdate s m src now).gossip_cache
                                m.msg_id m).tail
                          else GossipPy.dictSet
                                (GossipPy.preUpdate s m src now).gossip_cache
                                m.msg_id m }
                      { m with ttl := m.ttl - 1 } (some m.sender_id)).2.1
                    rw [hpe]
                    show ({ m with ttl := m.ttl - 1 } : GossipPy.Msg).msg_id ∈ _
                    rw [hb]
                    simp
              · rw [if_neg h6]
                by_cases h7 : m.msg_type = "IHAVE"
                · rw [if_pos h7]
                  exact ⟨by simp [GossipPy.noPush], by simp [GossipPy.noPush]⟩
                · rw [if_neg h7]
                  by_cases h8 : m.msg_type = "IWANT"
                  · rw [if_pos h8]
                    exact ⟨by simp [GossipPy.noPush], by simp [GossipPy.noPush]⟩
                  · rw [if_neg h8]
                    exact ⟨by simp, by simp⟩

/-- Helper: one step preserves the configuration, drops a bounded prefix of
the uuid stream, and extends the seen set only by the event's own new ids. -/
theorem step_frame (s : GossipPy.NodeState) (e : GossipPy.Event) :
    (GossipPy.step s e).1.cfg = s.cfg ∧
    (∃ k ≤ GossipPy.uuidNeed s.cfg e, (GossipPy.step s e).1.uuids = s.uuids.drop k) ∧
    ∃ ext, (GossipPy.step s e).1.seen_msgs = s.seen_msgs ++ ext ∧
      ∀ x ∈ ext, x ∈ GossipPy.eventNewIds s e ∧
        (s.uuids.Nodup → x ∉ (GossipPy.step s e).1.uuids ∨
          ∃ m src now, e = GossipPy.Event.recv m src now) := by
  cases e with
  | recv m src now =>
      obtain ⟨hc, ⟨k, hk, hu⟩, ext, hs, hext⟩ := handleDatagram_frame s m src now
      refine ⟨hc, ⟨k, hk, hu⟩, ext, hs, ?_⟩
      intro x hx
      refine ⟨?_, fun _ => Or.inr ⟨m, src, now, rfl⟩⟩
      rw [(hext x hx).1]
      exact List.mem_singleton.mpr rfl
  | stdinLine text now =>
      have hstep : GossipPy.step s (GossipPy.Event.stdinLine text now) =
          GossipPy.originate s text now := rfl
      by_cases ht : text = ""
      · rw [hstep, (originate_spec s text now).1 ht]
        exact ⟨rfl, ⟨0, Nat.zero_le _, rfl⟩, [], by simp, by simp⟩
      · obtain ⟨hc, hu, hs, _⟩ := (originate_spec s text now).2 ht
        obtain ⟨ext, he, hx⟩ := seenAdd_ext s.seen_msgs (GossipPy.drawUuid s.uuids).1
        rw [hstep]
        refine ⟨hc, ⟨1, le_rfl, hu⟩, ext, by rw [hs, he], ?_⟩
        intro x hxe
        rw [hx x hxe]
        refine ⟨List.mem_singleton.mpr rfl, fun hnd => Or.inl ?_⟩
        rw [hu]
        exact drawUuid_fst_not_mem_drop s.uuids hnd
  | pingTick now =>
      obtain ⟨hc, hs, k, hk, hu⟩ := pingTick_frame s now
      exact ⟨hc, ⟨k, hk, hu⟩, [],
        by simp [GossipPy.step, GossipPy.noPush, hs], by simp⟩
  | pullTick now =>
      obtain ⟨hc, hs, k, hk, hu⟩ := pullTick_frame s now
      exact ⟨hc, ⟨k, hk, hu⟩, [],
        by simp [GossipPy.step, GossipPy.noPush, hs], by simp⟩
  | discoveryTick now =>
      obtain ⟨hc, hs, k, hk, hu⟩ := discoveryTick_frame s now
      exact ⟨hc, ⟨k, hk, hu⟩, [],
        by simp [GossipPy.step, GossipPy.noPush, hs], by simp⟩

/-- Helper: one step pushes at most one envelope; a pushed id is recorded as
seen and is either fresh or the freshly drawn uuid. -/
theorem step_pushes (s : GossipPy.NodeState) (e : GossipPy.Event) :
    (GossipPy.step s e).2.2.length ≤ 1 ∧
    ∀ p ∈ (GossipPy.step s e).2.2,
      p.msg_id ∈ (GossipPy.step s e).1.seen_msgs ∧
      (p.msg_id ∉ s.seen_msgs ∨
        (p.msg_id = (GossipPy.drawUuid s.uuids).1 ∧ 1 ≤ GossipPy.uuidNeed s.cfg e)) := by
  cases e with
  | recv m src now =>
      obtain ⟨hl, hp⟩ := handleDatagram_pushes s m src now
      refine ⟨hl, fun p hpp => ?_⟩
      obtain ⟨h1, h2, h3⟩ := hp p hpp
      exact ⟨h3, Or.inl (by rw [h1]; exact h2)⟩
  | stdinLine text now =>
      have hstep : GossipPy.step s (GossipPy.Event.stdinLine text now) =
          GossipPy.originate s text now := rfl
      by_cases ht : text = ""
      · rw [hstep, (originate_spec s text now).1 ht]
        exact ⟨by simp, by simp⟩
      · obtain ⟨_, _, hs, hp⟩ := (originate_spec s text now).2 ht
        rw [hstep]
        constructor
        · rw [hp]
          simp
        · intro p hpp
          rw [hp] at hpp
          have hpeq : p = (GossipPy.makeGossip s "user" text none now).2 :=
            List.mem_singleton.mp hpp
          have hid : p.msg_id = (GossipPy.drawUuid s.uuids).1 := by rw [hpeq]; rfl
          refine ⟨?_, Or.inr ⟨hid, le_rfl⟩⟩
          rw [hs, hid]
          exact mem_seenAdd _ _
  | pingTick now => exact ⟨by simp [GossipPy.step, GossipPy.noPush],
      by simp [GossipPy.step, GossipPy.noPush]⟩
  | pullTick now => exact ⟨by simp [GossipPy.step, GossipPy.noPush],
      by simp [GossipPy.step, GossipPy.noPush]⟩
  | discoveryTick now => exact ⟨by simp [GossipPy.step, GossipPy.noPush],
      by simp [GossipPy.step, GossipPy.noPush]⟩

/-- Helper: the uuid budget of a run splits off its head event. -/
theorem needTotal_cons (cfg : GossipPy.NodeConfig) (e : GossipPy.Event)
    (es : List GossipPy.Event) :
    GossipPy.needTotal cfg (e :: es) =
      GossipPy.uuidNeed cfg e + GossipPy.needTotal cfg es := by
  simp [GossipPy.needTotal]

/-- Helper: the inbound ids of the tail of a run are inbound ids of the run. -/
theorem recvIds_subset (e : GossipPy.Event) (es : List GossipPy.Event) :
    GossipPy.recvIds es ⊆ GossipPy.recvIds (e :: es) := by
  intro u hu
  unfold GossipPy.recvIds at hu ⊢
  rw [List.filterMap_cons]
  cases e <;> simp_all

/-- Helper: the id of the first inbound datagram is an inbound id. -/
theorem recvIds_head (m : GossipPy.Msg) (src : GossipPy.Addr) (now : Int)
    (es : List GossipPy.Event) :
    m.msg_id ∈ GossipPy.recvIds (GossipPy.Event.recv m src now :: es) := by
  unfold GossipPy.recvIds
  rw [List.filterMap_cons]
  simp

/-- Helper: uuid freshness is preserved by one step. -/
theorem uuidFresh_step (s : GossipPy.NodeState) (e : GossipPy.Event)
    (es : List GossipPy.Event) (h : GossipPy.UuidFresh s (e :: es)) :
    GossipPy.UuidFresh (GossipPy.step s e).1 es := by
  obtain ⟨hlen, hnd, hmem⟩ := h
  rw [needTotal_cons] at hlen
  obtain ⟨hc, ⟨k, hk, hu⟩, ext, hs, hext⟩ := step_frame s e
  refine ⟨?_, ?_, ?_⟩
  · rw [hc, hu, List.length_drop]
    omega
  · rw [hu]
    exact hnd.sublist (List.drop_sublist k s.uuids)
  · intro u hu2
    have hu3 : u ∈ s.uuids.drop k := by rw [← hu]; exact hu2
    have humem : u ∈ s.uuids := List.drop_subset k s.uuids hu3
    obtain ⟨hseen, hrecv⟩ := hmem u humem
    refine ⟨?_, fun hr => hrecv (recvIds_subset e es hr)⟩
    rw [hs]
    intro hcon
    rcases List.mem_append.mp hcon with hl | hr2
    · exact hseen hl
    · obtain ⟨hxn, hcl⟩ := hext u hr2
      rcases hcl hnd with hnot | ⟨m, src, now, rfl⟩
      · exact hnot hu2
      · have hx2 : u = m.msg_id := List.mem_singleton.mp hxn
        subst hx2
        exact hrecv (recvIds_head m src now es)

/-- Helper: under uuid freshness, the pushed ids of a run have no repeats and
none of them was seen at the start. -/
theorem run_pushes (es : List GossipPy.Event) :
    ∀ s : GossipPy.NodeState, GossipPy.UuidFresh s es →
    ((GossipPy.run s es).2.2.map (fun p => p.msg_id)).Nodup ∧
    ∀ p ∈ (GossipPy.run s es).2.2, p.msg_id ∉ s.seen_msgs := by
  induction es with
  | nil =>
      intro s _
      exact ⟨List.nodup_nil, by simp [GossipPy.run]⟩
  | cons e rest ih =>
      intro s h
      have h1 := uuidFresh_step s e rest h
      obtain ⟨ihnd, ihni⟩ := ih (GossipPy.step s e).1 h1
      obtain ⟨hl, hps⟩ := step_pushes s e
      obtain ⟨hc, ⟨k, hk, hu⟩, ext, hs, hext⟩ := step_frame s e
      obtain ⟨hlen, hnd, hmem⟩ := h
      rw [needTotal_cons] at hlen
      have hrunEq : (GossipPy.run s (e :: rest)).2.2 =
          (GossipPy.step s e).2.2 ++ (GossipPy.run (GossipPy.step s e).1 rest).2.2 := rfl
      have hfst : ∀ p ∈ (GossipPy.step s e).2.2, p.msg_id ∉ s.seen_msgs := by
        intro p hp
        rcases (hps p hp).2 with hni | ⟨hhid, hne⟩
        · exact hni
        · have hlen1 : 1 ≤ s.uuids.length := by omega
          have hmemu : (GossipPy.drawUuid s.uuids).1 ∈ s.uuids := by
            refine drawUuid_fst_mem s.uuids ?_
            intro hnil
            rw [hnil] at hlen1
            simp at hlen1
          rw [hhid]
          exact (hmem _ hmemu).1
      constructor
      · rw [hrunEq, List.map_append]
        refine List.Nodup.append ?_ ihnd ?_
        · exact nodup_of_length_le_one (by rw [List.length_map]; exact hl)
        · intro a ha hb
          obtain ⟨p, hp, rfl⟩ := List.mem_map.mp ha
          obtain ⟨q, hq, hqe⟩ := List.mem_map.mp hb
          have h1m : p.msg_id ∈ (GossipPy.step s e).1.seen_msgs := (hps p hp).1
          have h2m : q.msg_id ∉ (GossipPy.step s e).1.seen_msgs := ihni q hq
          rw [hqe] at h2m
          exact h2m h1m
      · intro p hp
        rw [hrunEq] at hp
        rcases List.mem_append.mp hp with hp1 | hp2
        · exact hfst p hp1
        · have hni := ihni p hp2
          rw [hs] at hni
          exact fun hcon => hni (List.mem_append_left ext hcon)


/-- Helper: replacing the uuid stream leaves the peer table alone. -/
theorem uuidsRepl_peers (s : GossipPy.NodeState) (w : List String) :
    ({ s with uuids := w } : GossipPy.NodeState).peers = s.peers := rfl

/-- Helper: replacing the uuid stream leaves the configuration alone. -/
theorem uuidsRepl_cfg (s : GossipPy.NodeState) (w : List String) :
    ({ s with uuids := w } : GossipPy.NodeState).cfg = s.cfg := rfl

/-- Helper: replacing the uuid stream leaves the node id alone. -/
theorem uuidsRepl_node_id (s : GossipPy.NodeState) (w : List String) :
    ({ s with uuids := w } : GossipPy.NodeState).node_id = s.node_id := rfl

/-- Helper: replacing the uuid stream leaves the seen set alone. -/
theorem uuidsRepl_seen (s : GossipPy.NodeState) (w : List String) :
    ({ s with uuids := w } : GossipPy.NodeState).seen_msgs = s.seen_msgs := rfl

/-- Helper: replacing the uuid stream leaves the gossip cache alone. -/
theorem uuidsRepl_cache (s : GossipPy.NodeState) (w : List String) :
    ({ s with uuids := w } : GossipPy.NodeState).gossip_cache = s.gossip_cache := rfl

/-- Helper: replacing the uuid stream leaves the PRNG stream alone. -/
theorem uuidsRepl_rng (s : GossipPy.NodeState) (w : List String) :
    ({ s with uuids := w } : GossipPy.NodeState).rng = s.rng := rfl

/-- Helper: `_update_peer` commutes with replacing the uuid stream. -/
theorem updatePeer_uuids (s : GossipPy.NodeState) (w : List String) (nid : String)
    (a : GossipPy.Addr) (now : Int) :
    GossipPy.updatePeer { s with uuids := w } nid a now =
      { GossipPy.updatePeer s nid a now with uuids := w } := by
  unfold GossipPy.updatePeer
  rw [uuidsRepl_peers, uuidsRepl_cfg]
  cases GossipPy.dictGet s.peers nid <;> rfl

/-- Helper: the pre-dispatch sender refresh commutes with replacing the uuid
stream. -/
theorem preUpdate_uuids (s : GossipPy.NodeState) (w : List String) (m : GossipPy.Msg)
    (a : GossipPy.Addr) (now : Int) :
    GossipPy.preUpdate { s with uuids := w } m a now =
      { GossipPy.preUpdate s m a now with uuids := w } := by
  unfold GossipPy.preUpdate
  rw [uuidsRepl_node_id]
  by_cases hcond : m.sender_id ≠ s.node_id ∧ m.msg_type ≠ "HELLO"
  · rw [if_pos hcond, if_pos hcond]
    exact updatePeer_uuids s w m.sender_id a now
  · rw [if_neg hcond, if_neg hcond]

/-- Helper: `_broadcast` commutes with replacing the uuid stream. -/
theorem broadcast_uuids (s : GossipPy.NodeState) (w : List String) (msg : GossipPy.Msg)
    (ex : Option String) :
    GossipPy.broadcast { s with uuids := w } msg ex =
      ({ (GossipPy.broadcast s msg ex).1 with uuids := w },
       (GossipPy.broadcast s msg ex).2) := by
  unfold GossipPy.broadcast
  rw [uuidsRepl_peers, uuidsRepl_cfg, uuidsRepl_rng]
  cases ex with
  | none =>
      simp only []
      by_cases hemp : s.peers.isEmpty = true
      · rw [if_pos hemp, if_pos hemp]
      · rw [if_neg hemp, if_neg hemp]
  | some e =>
      simp only []
      by_cases hemp : (s.peers.filter (fun kv => kv.1 ≠ e)).isEmpty = true
      · rw [if_pos hemp, if_pos hemp]
      · rw [if_neg hemp, if_neg hemp]

/-- Helper: `_on_gossip` commutes with replacing the uuid stream. -/
theorem onGossip_uuids (s : GossipPy.NodeState) (w : List String) (m : GossipPy.Msg)
    (ttl : Int) (sid : String) (now : Int) :
    GossipPy.onGossip { s with uuids := w } m ttl sid now =
      ({ (GossipPy.onGossip s m ttl sid now).1 with uuids := w },
       (GossipPy.onGossip s m ttl sid now).2.1,
       (GossipPy.onGossip s m ttl sid now).2.2) := by
  by_cases hdup : m.msg_id = "" ∨ m.msg_id ∈ s.seen_msgs
  · have hdup2 : m.msg_id = "" ∨
        m.msg_id ∈ ({ s with uuids := w } : GossipPy.NodeState).seen_msgs := hdup
    rw [onGossip_dup _ m ttl sid now hdup2, onGossip_dup s m ttl sid now hdup]
  · push_neg at hdup
    have hfr2 : m.msg_id ∉ ({ s with uuids := w } : GossipPy.NodeState).seen_msgs :=
      hdup.2
    rw [onGossip_fresh _ m ttl sid now hdup.1 hfr2,
      onGossip_fresh s m ttl sid now hdup.1 hdup.2]
    simp only [uuidsRepl_seen, uuidsRepl_cache]
    by_cases httl : ttl ≤ 0
    · rw [if_pos httl, if_pos httl]
    · rw [if_neg httl, if_neg httl]
      have hb := broadcast_uuids
        { s with
          seen_msgs := s.seen_msgs ++ [m.msg_id],
          gossip_cache :=
            if (GossipPy.dictSet s.gossip_cache m.msg_id m).length > 1024
            then (GossipPy.dictSet s.gossip_cache m.msg_id m).tail
            else GossipPy.dictSet s.gossip_cache m.msg_id m } w
        { m with ttl := ttl - 1 } (some sid)
      refine congrArg₂ Prod.mk ?_ (congrArg₂ Prod.mk ?_ rfl)
      · have h1 := congrArg Prod.fst hb
        exact h1
      · have h2 := congrArg Prod.snd hb
        exact h2

/-- Helper: handling a GOSSIP datagram commutes with replacing the uuid
stream: the state is updated identically and the same datagrams go out. -/
theorem handleDatagram_gossip_uuids (s : GossipPy.NodeState) (w : List String)
    (m : GossipPy.Msg) (src : GossipPy.Addr) (now : Int) (hty : m.msg_type = "GOSSIP") :
    GossipPy.handleDatagram { s with uuids := w } m src now =
      ({ (GossipPy.handleDatagram s m src now).1 with uuids := w },
       (GossipPy.handleDatagram s m src now).2.1,
       (GossipPy.handleDatagram s m src now).2.2) := by
  by_cases hsid : m.sender_id = ""
  · have hL : GossipPy.handleDatagram { s with uuids := w } m src now =
        ({ s with uuids := w }, [], []) := by
      unfold GossipPy.handleDatagram
      rw [if_pos (Or.inr hsid)]
    have hR : GossipPy.handleDatagram s m src now = (s, [], []) := by
      unfold GossipPy.handleDatagram
      rw [if_pos (Or.inr hsid)]
    rw [hL, hR]
  · rw [handleDatagram_gossip _ m src now hty hsid,
      handleDatagram_gossip s m src now hty hsid, preUpdate_uuids s w m src now]
    exact onGossip_uuids (GossipPy.preUpdate s m src now) w m m.ttl m.sender_id now

/-- Helper: a run consisting solely of inbound GOSSIP never reads the uuid
stream: its sends, pushes, and state change are the same for any stream. -/
theorem run_gossip_uuids (es : List GossipPy.Event) :
    ∀ (s : GossipPy.NodeState) (w : List String), GossipPy.GossipOnly es →
    GossipPy.run { s with uuids := w } es =
      ({ (GossipPy.run s es).1 with uuids := w },
       (GossipPy.run s es).2.1, (GossipPy.run s es).2.2) := by
  induction es with
  | nil =>
      intro s w _
      rfl
  | cons e rest ih =>
      intro s w hG
      have hGr : GossipPy.GossipOnly rest := fun x hx => hG x (List.mem_cons_of_mem e hx)
      have hGe := hG e (List.mem_cons_self e rest)
      cases e with
      | recv m src now =>
          have hty : m.msg_type = "GOSSIP" := hGe
          have hstep := handleDatagram_gossip_uuids s w m src now hty
          have hrunL : GossipPy.run { s with uuids := w }
              (GossipPy.Event.recv m src now :: rest) =
              ((GossipPy.run (GossipPy.step { s with uuids := w }
                  (GossipPy.Event.recv m src now)).1 rest).1,
               (GossipPy.step { s with uuids := w }
                  (GossipPy.Event.recv m src now)).2.1 ++
                 (GossipPy.run (GossipPy.step { s with uuids := w }
                    (GossipPy.Event.recv m src now)).1 rest).2.1,
               (GossipPy.step { s with uuids := w }
                  (GossipPy.Event.recv m src now)).2.2 ++
                 (GossipPy.run (GossipPy.step { s with uuids := w }
                    (GossipPy.Event.recv m src now)).1 rest).2.2) := rfl
          have hrunR : GossipPy.run s (GossipPy.Event.recv m src now :: rest) =
              ((GossipPy.run (GossipPy.step s (GossipPy.Event.recv m src now)).1 rest).1,
               (GossipPy.step s (GossipPy.Event.recv m src now)).2.1 ++
                 (GossipPy.run (GossipPy.step s
                    (GossipPy.Event.recv m src now)).1 rest).2.1,
               (GossipPy.step s (GossipPy.Event.recv m src now)).2.2 ++
                 (GossipPy.run (GossipPy.step s
                    (GossipPy.Event.recv m src now)).1 rest).2.2) := rfl
          have hstep2 : GossipPy.step { s with uuids := w }
              (GossipPy.Event.recv m src now) =
              ({ (GossipPy.step s (GossipPy.Event.recv m src now)).1 with uuids := w },
               (GossipPy.step s (GossipPy.Event.recv m src now)).2.1,
               (GossipPy.step s (GossipPy.Event.recv m src now)).2.2) := hstep
          rw [hrunL, hrunR, hstep2]
          rw [ih (GossipPy.step s (GossipPy.Event.recv m src now)).1 w hGr]
      | stdinLine text now => exact absurd hGe (by simp [GossipPy.GossipOnly])
      | pingTick now => exact absurd hGe (by simp [GossipPy.GossipOnly])
      | pullTick now => exact absurd hGe (by simp [GossipPy.GossipOnly])
      | discoveryTick now => exact absurd hGe (by simp [GossipPy.GossipOnly])

/-- Helper: two states equal outside the uuid stream differ only by a stream
replacement. -/
theorem coreEq_eta (s1 s2 : GossipPy.NodeState) (h : GossipPy.coreEq s1 s2) :
    s2 = { s1 with uuids := s2.uuids } := by
  obtain ⟨h1, h2, h3, h4, h5, h6, h7, h8⟩ := h
  cases s1
  cases s2
  simp only [] at h1 h2 h3 h4 h5 h6 h7 h8
  simp [h1, h2, h3, h4, h5, h6, h7, h8]

/-- Helper: a fresh key makes `d[k] = v` an append. -/
theorem dictSet_append_of_fresh {α : Type} (d : List (String × α)) (k : String) (v : α)
    (h : ∀ kv ∈ d, kv.1 ≠ k) : GossipPy.dictSet d k v = d ++ [(k, v)] := by
  unfold GossipPy.dictSet
  rw [if_neg]
  simp only [GossipPy.dictContains, List.any_eq_true]
  rintro ⟨kv, hkv, hbeq⟩
  exact h kv hkv (by simpa using hbeq)


/-- C2: for a well-formed fresh GOSSIP datagram, every forwarded copy carries
the received envelope with `ttl' = ttl - 1` and `ttl' ≥ 0`, addressed to a
stored peer other than the immediate sender; with `ttl = 0` the message is
accepted — its id enters the SeenSet and the envelope enters the GossipCache
— but nothing is sent and nothing is pushed. -/
theorem C2_gossip_ttl (s : GossipPy.NodeState) (m : GossipPy.Msg) (src : GossipPy.Addr)
    (now : Int)
    (hty : m.msg_type = "GOSSIP") (hsid : m.sender_id ≠ "") (hid : m.msg_id ≠ "")
    (hfresh : m.msg_id ∉ s.seen_msgs)
    (hcache : ∀ kv ∈ s.gossip_cache, kv.1 ≠ m.msg_id) :
    (∀ sd ∈ (GossipPy.handleDatagram s m src now).2.1,
       sd.msg = { m with ttl := m.ttl - 1 } ∧ 0 ≤ sd.msg.ttl ∧
       ∃ kv ∈ (GossipPy.preUpdate s m src now).peers,
         kv.1 ≠ m.sender_id ∧ sd.dest = kv.2.addr) ∧
    (m.ttl ≤ 0 → (GossipPy.handleDatagram s m src now).2.1 = [] ∧
       (GossipPy.handleDatagram s m src now).2.2 = []) ∧
    m.msg_id ∈ (GossipPy.handleDatagram s m src now).1.seen_msgs ∧
    (m.msg_id, m) ∈ (GossipPy.handleDatagram s m src now).1.gossip_cache := by
  have hsm : (GossipPy.preUpdate s m src now).seen_msgs = s.seen_msgs :=
    (preUpdate_proj s m src now).2.2.2.1
  have hgc : (GossipPy.preUpdate s m src now).gossip_cache = s.gossip_cache :=
    (preUpdate_proj s m src now).2.2.2.2.1
  have hfresh0 : m.msg_id ∉ (GossipPy.preUpdate s m src now).seen_msgs := by
    rw [hsm]
    exact hfresh
  have hset : GossipPy.dictSet (GossipPy.preUpdate s m src now).gossip_cache m.msg_id m =
      s.gossip_cache ++ [(m.msg_id, m)] := by
    rw [hgc]
    exact dictSet_append_of_fresh s.gossip_cache m.msg_id m hcache
  have hcmem : (m.msg_id, m) ∈
      (if (GossipPy.dictSet (GossipPy.preUpdate s m src now).gossip_cache
            m.msg_id m).length > 1024
       then (GossipPy.dictSet (GossipPy.preUpdate s m src now).gossip_cache
            m.msg_id m).tail
       else GossipPy.dictSet (GossipPy.preUpdate s m src now).gossip_cache m.msg_id m) := by
    rw [hset]
    by_cases hlen : (s.gossip_cache ++ [(m.msg_id, m)]).length > 1024
    · rw [if_pos hlen]
      cases hgcs : s.gossip_cache with
      | nil =>
          rw [hgcs] at hlen
          simp at hlen
      | cons a t =>
          simp
    · rw [if_neg hlen]
      simp
  rw [handleDatagram_gossip s m src now hty hsid,
    onGossip_fresh _ m m.ttl m.sender_id now hid hfresh0]
  by_cases httl : m.ttl ≤ 0
  · rw [if_pos httl]
    refine ⟨fun sd hsd => absurd hsd (by simp), fun _ => ⟨rfl, rfl⟩, ?_, hcmem⟩
    exact List.mem_append_right _ (List.mem_singleton.mpr rfl)
  · rw [if_neg httl]
    refine ⟨?_, fun h => absurd h httl, ?_, ?_⟩
    · intro sd hsd
      obtain ⟨hmsg, kv, hkv, hke, hdest⟩ := broadcast_sends _ _ _ sd hsd
      refine ⟨hmsg, ?_, kv, hkv, hke m.sender_id rfl, hdest⟩
      rw [hmsg]
      show (0 : Int) ≤ m.ttl - 1
      omega
    · rw [(broadcast_proj _ _ _).2.1]
      exact List.mem_append_right _ (List.mem_singleton.mpr rfl)
    · rw [(broadcast_proj _ _ _).2.2.2.2]
      exact hcmem

/-- C2 witness: a concrete node forwards a fresh GOSSIP with decremented ttl
and records it. -/
theorem C2_gossip_ttl_witness :
    GossipPy.cFreshG.msg_type = "GOSSIP" ∧ GossipPy.cFreshG.sender_id ≠ "" ∧
    GossipPy.cFreshG.msg_id ≠ "" ∧
    GossipPy.cFreshG.msg_id ∉ GossipPy.cNode1.seen_msgs ∧
    (∀ kv ∈ GossipPy.cNode1.gossip_cache, kv.1 ≠ GossipPy.cFreshG.msg_id) ∧
    ((∀ sd ∈ (GossipPy.handleDatagram GossipPy.cNode1 GossipPy.cFreshG ("h", 2) 5).2.1,
       sd.msg = { GossipPy.cFreshG with ttl := GossipPy.cFreshG.ttl - 1 } ∧
       0 ≤ sd.msg.ttl ∧
       ∃ kv ∈ (GossipPy.preUpdate GossipPy.cNode1 GossipPy.cFreshG ("h", 2) 5).peers,
         kv.1 ≠ GossipPy.cFreshG.sender_id ∧ sd.dest = kv.2.addr) ∧
    (GossipPy.cFreshG.ttl ≤ 0 →
       (GossipPy.handleDatagram GossipPy.cNode1 GossipPy.cFreshG ("h", 2) 5).2.1 = [] ∧
       (GossipPy.handleDatagram GossipPy.cNode1 GossipPy.cFreshG ("h", 2) 5).2.2 = []) ∧
    GossipPy.cFreshG.msg_id ∈
      (GossipPy.handleDatagram GossipPy.cNode1 GossipPy.cFreshG ("h", 2) 5).1.seen_msgs ∧
    (GossipPy.cFreshG.msg_id, GossipPy.cFreshG) ∈
      (GossipPy.handleDatagram GossipPy.cNode1 GossipPy.cFreshG ("h", 2) 5).1.gossip_cache) :=
  ⟨by decide, by decide, by decide, by decide, by decide,
   C2_gossip_ttl GossipPy.cNode1 GossipPy.cFreshG ("h", 2) 5 (by decide) (by decide)
     (by decide) (by decide) (by decide)⟩

/-- C1 (amended): a received duplicate GOSSIP — id already in the SeenSet —
produces no datagram and no push, and the only state change is the generic
pre-dispatch sender refresh of the peer table; moreover, in any run whose
uuid4 entropy stream is fresh for it, each msg id goes out on the push path
at most once. -/
theorem C1_seen_discipline (s : GossipPy.NodeState) (m : GossipPy.Msg)
    (src : GossipPy.Addr) (now : Int) (es : List GossipPy.Event) (mid : String)
    (hty : m.msg_type = "GOSSIP") (hsid : m.sender_id ≠ "")
    (hdup : m.msg_id ∈ s.seen_msgs)
    (hfresh : GossipPy.UuidFresh s es) :
    GossipPy.handleDatagram s m src now = (GossipPy.preUpdate s m src now, [], []) ∧
    ((GossipPy.run s es).2.2.map (fun p => p.msg_id)).count mid ≤ 1 := by
  constructor
  · rw [handleDatagram_gossip s m src now hty hsid]
    refine onGossip_dup _ m m.ttl m.sender_id now (Or.inr ?_)
    rw [(preUpdate_proj s m src now).2.2.2.1]
    exact hdup
  · exact List.nodup_iff_count_le_one.mp (run_pushes es s hfresh).1 mid

/-- C1 witness: a concrete duplicate GOSSIP reduced to the sender refresh,
and a run with push count at most one. -/
theorem C1_seen_discipline_witness :
    GossipPy.cDupG.msg_type = "GOSSIP" ∧ GossipPy.cDupG.sender_id ≠ "" ∧
    GossipPy.cDupG.msg_id ∈ GossipPy.cNodeSeen.seen_msgs ∧
    GossipPy.UuidFresh GossipPy.cNodeSeen [] ∧
    (GossipPy.handleDatagram GossipPy.cNodeSeen GossipPy.cDupG ("h", 2) 5 =
       (GossipPy.preUpdate GossipPy.cNodeSeen GossipPy.cDupG ("h", 2) 5, [], []) ∧
     ((GossipPy.run GossipPy.cNodeSeen []).2.2.map (fun p => p.msg_id)).count "z" ≤ 1) :=
  ⟨by decide, by decide, by decide, by decide,
   C1_seen_discipline GossipPy.cNodeSeen GossipPy.cDupG ("h", 2) 5 [] "z"
     (by decide) (by decide) (by decide) (by decide)⟩

/-- C1 counterexample: handling a duplicate GOSSIP does change node state —
the sender is upserted into the peer table before dispatch — so "changes no
node state" is false as stated. -/
theorem C1_counterexample :
    GossipPy.cDupG.msg_type = "GOSSIP" ∧
    GossipPy.cDupG.msg_id ∈ GossipPy.cNodeSeen.seen_msgs ∧
    (GossipPy.handleDatagram GossipPy.cNodeSeen GossipPy.cDupG ("h", 2) 5).1 ≠
      GossipPy.cNodeSeen := by
  decide

/-- C9 (amended): replay determinism holds against the seeded PRNG but only
up to the uuid4 entropy: over inbound GOSSIP datagrams — whose handling never
draws a uuid — two states equal except for the uuid4 stream produce identical
datagram sequences and remain equal except for the stream. -/
theorem C9_gossip_replay (s1 s2 : GossipPy.NodeState) (es : List GossipPy.Event)
    (hG : GossipPy.GossipOnly es) (hc : GossipPy.coreEq s1 s2) :
    (GossipPy.run s1 es).2.1 = (GossipPy.run s2 es).2.1 ∧
    GossipPy.coreEq (GossipPy.run s1 es).1 (GossipPy.run s2 es).1 := by
  have hs2 := coreEq_eta s1 s2 hc
  rw [hs2, run_gossip_uuids es s1 s2.uuids hG]
  exact ⟨rfl, rfl, rfl, rfl, rfl, rfl, rfl, rfl, rfl⟩

/-- C9 witness: a concrete GOSSIP-only run replayed against two different
uuid4 streams. -/
theorem C9_gossip_replay_witness :
    GossipPy.GossipOnly [GossipPy.Event.recv GossipPy.cFreshG ("h", 2) 5] ∧
    GossipPy.coreEq GossipPy.cNode1 GossipPy.cNodeU2 ∧
    ((GossipPy.run GossipPy.cNode1 [GossipPy.Event.recv GossipPy.cFreshG ("h", 2) 5]).2.1 =
       (GossipPy.run GossipPy.cNodeU2
         [GossipPy.Event.recv GossipPy.cFreshG ("h", 2) 5]).2.1 ∧
     GossipPy.coreEq
       (GossipPy.run GossipPy.cNode1 [GossipPy.Event.recv GossipPy.cFreshG ("h", 2) 5]).1
       (GossipPy.run GossipPy.cNodeU2
         [GossipPy.Event.recv GossipPy.cFreshG ("h", 2) 5]).1) := by
  have hGO : GossipPy.GossipOnly [GossipPy.Event.recv GossipPy.cFreshG ("h", 2) 5] := by
    intro e he
    rw [List.mem_singleton] at he
    subst he
    rfl
  exact ⟨hGO, by decide,
    C9_gossip_replay GossipPy.cNode1 GossipPy.cNodeU2 _ hGO (by decide)⟩

/-- C9 counterexample: the claim fails for the node as a whole — a PING
reply's `msg_id` is a uuid4 draw from OS entropy, not from the seeded PRNG,
so equal seeds, inputs, and clocks still give different datagrams. -/
theorem C9_counterexample :
    GossipPy.coreEq GossipPy.cNode1 GossipPy.cNodeU2 ∧
    ((GossipPy.step GossipPy.cNode1
        (GossipPy.Event.recv GossipPy.cPingM ("h", 1) 3)).2.1.map
      (fun sd => sd.msg.msg_id)) ≠
    ((GossipPy.step GossipPy.cNodeU2
        (GossipPy.Event.recv GossipPy.cPingM ("h", 1) 3)).2.1.map
      (fun sd => sd.msg.msg_id)) := by
  decide
